import Mathlib

/-!
# Transaction relay state store of the rpc-endpoint gateway

A shallow embedding of `server/redisstate.go` (the five TTL-indexed lookup
tables kept in Redis) and of `IsBlacklisted` from `server/server.go`.

Go strings are modelled as Lean strings, i.e. sequences of Unicode code
points (valid UTF-8).  Machine integers are `Nat`/`Int` with explicit
wrap-around where the Go code can overflow.
-/

namespace RpcEndpoint

/-! ## Standard-library functions called by the source -/

/-- Go `unicode.ToLower` on one rune.  ASCII runes are handled as Go does
(`'A'..'Z'` are shifted by `'a' - 'A' = 32`, all other ASCII runes are kept);
the Unicode case tables used for non-ASCII runes are the parameter `tables`. -/
def lowerRune (tables : Char → Char) (c : Char) : Char :=
  if c.toNat < 128 then
    if 65 ≤ c.toNat ∧ c.toNat ≤ 90 then Char.ofNat (c.toNat + 32) else c
  else tables c

/-- Go `strings.ToLower`: every rune of the string is mapped with
`unicode.ToLower`. -/
def ToLower (tables : Char → Char) (s : String) : String :=
  String.mk (s.data.map (lowerRune tables))

/-- Go `strings.HasPrefix(s, prefix)`:
`len(s) >= len(prefix) && s[:len(prefix)] == prefix`. -/
def HasPrefix (s pre : String) : Bool :=
  decide (pre.data.length ≤ s.data.length ∧ s.data.take pre.data.length = pre.data)

/-- The decimal digit `d` (`0 ≤ d ≤ 9`) as a character. -/
def digitChar (d : Nat) : Char := Char.ofNat (48 + d)

/-- Decimal digits of `n`, least significant first, as Go's `formatBits`
produces them while filling its buffer from the end.  The first argument
bounds the number of digits. -/
def lsdDigits : Nat → Nat → List Char
  | 0, _ => []
  | fuel + 1, n => digitChar (n % 10) :: (if n / 10 = 0 then [] else lsdDigits fuel (n / 10))

/-- Go `strconv.FormatUint(n, 10)`. -/
def FormatUint (n : Nat) : String := String.mk (lsdDigits (n + 1) n).reverse

/-- Go `strconv.FormatInt(i, 10)`: a minus sign and the magnitude for
negative numbers. -/
def FormatInt (i : Int) : String :=
  if i < 0 then String.mk ('-' :: (FormatUint i.natAbs).data) else FormatUint i.toNat

deriving instance DecidableEq for Except

/-- Errors seen by the store's callers. -/
inductive Error where
  /-- The sentinel `redis.Nil`: the key does not exist. -/
  | Nil
  /-- Any other error of the Redis client (network, authentication, ...). -/
  | transport (msg : String)
  /-- The error `strconv.ErrSyntax` wrapped in a `*strconv.NumError`. -/
  | invalidNumber
  /-- The error `strconv.ErrRange` wrapped in a `*strconv.NumError`. -/
  | outOfRange
deriving DecidableEq, Repr

/-- The digit loop of Go `strconv.ParseUint` for base 10 with the
accumulator `n`; `maxVal = 2^bitSize - 1` and `cutoff = maxUint64/10 + 1`.
A byte that is not a decimal digit is a syntax error; `n >= cutoff` means
`n*10` overflows, and `n1 < n || n1 > maxVal` (with `n` already multiplied by
10) means `n + d` overflows. -/
def parseUintLoop (maxVal : Nat) : List Char → Nat → Except Error Nat
  | [], n => .ok n
  | c :: cs, n =>
    if 48 ≤ c.toNat ∧ c.toNat ≤ 57 then
      let d := c.toNat - 48
      if n ≥ (2 ^ 64 - 1) / 10 + 1 then .error Error.outOfRange
      else
        let n10 := (n * 10) % 2 ^ 64
        let n1 := (n10 + d) % 2 ^ 64
        if n1 < n10 ∨ n1 > maxVal then .error Error.outOfRange
        else parseUintLoop maxVal cs n1
    else .error Error.invalidNumber

/-- Go `strconv.ParseUint(s, 10, 64)`; `strconv.ParseUint(s, 10, 0)` is the
same on a 64-bit platform. -/
def ParseUint (s : String) : Except Error Nat :=
  if s.data = [] then .error Error.invalidNumber
  else parseUintLoop (2 ^ 64 - 1) s.data 0

/-- Conversion `int64(x)` of Go: wrap into `[-2^63, 2^63)`. -/
def toInt64 (x : Int) : Int := (x + 2 ^ 63) % 2 ^ 64 - 2 ^ 63

/-- Go `strconv.ParseInt(s, 10, 0)` with `strconv.IntSize = 64`. -/
def ParseInt (s : String) : Except Error Int :=
  match s.data with
  | [] => .error Error.invalidNumber
  | c :: cs =>
    let neg := c = '-'
    let digits := if c = '+' ∨ c = '-' then cs else c :: cs
    match (if digits = [] then .error Error.invalidNumber
           else parseUintLoop (2 ^ 64 - 1) digits 0) with
    | .error e => .error e
    | .ok un =>
      if ¬ neg ∧ un ≥ 2 ^ 63 then .error Error.outOfRange
      else if neg ∧ un > 2 ^ 63 then .error Error.outOfRange
      else
        let n := toInt64 un
        .ok (if neg then toInt64 (-n) else n)

/-- Go `strconv.Atoi` on a 64-bit platform (`int` is `int64`): its fast path
for short strings computes the same result as `ParseInt(s, 10, 0)`, which it
calls otherwise. -/
def Atoi (s : String) : Except Error Int := ParseInt s

/-- Go `time.Duration`, a number of nanoseconds. -/
abbrev Duration := Int

/-- Go `time.Second`. -/
def Second : Duration := 1000000000

/-- Go `time.Hour`. -/
def Hour : Duration := 3600 * Second

/-- An instant of Go `time.Time`: seconds since the Unix epoch (what `Unix()`
returns, an `int64`) and the nanoseconds within that second. -/
structure Time where
  sec : Int
  nsec : Nat
deriving DecidableEq, Repr

/-- The zero value `time.Time{}`: January 1, year 1, 00:00:00 UTC. -/
def Time.zero : Time := ⟨-62135596800, 0⟩

/-- Go `Time.UTC`: the same instant with the location set to UTC. -/
def Time.UTC (t : Time) : Time := t

/-- Go `Time.Unix`: seconds since the Unix epoch. -/
def Time.Unix (t : Time) : Int := t.sec

/-- Go `time.Unix(sec, nsec)`: nanoseconds outside `[0, 1e9)` are carried
into the seconds. -/
def Unix (sec nsec : Int) : Time :=
  ⟨toInt64 (sec + nsec / 1000000000), (nsec % 1000000000).toNat⟩

/-! ## The Redis client -/

/-- A value handed to the client's `Set`; the source passes an `int64`, a
`uint64` or a `string`. -/
inductive Arg where
  | int64 (v : Int)
  | uint64 (v : Nat)
  | str (s : String)

/-- The text the go-redis client writes for an argument: decimal text for
integers, the string itself otherwise. -/
def Arg.text : Arg → String
  | .int64 v => FormatInt v
  | .uint64 v => FormatUint v
  | .str s => s

/-- One stored entry: the text and the instant (nanoseconds on the store's
clock) at which it expires. -/
structure Entry where
  value : String
  expiresAt : Int
deriving DecidableEq, Repr

/-- Modelled from the spec: the backing key-value service behind
`redis.Client`, which the source only calls.  It is a map from key to
(value, expiry); `fault = some msg` is a client whose calls fail with a
transport error. -/
structure Client where
  db : String → Option Entry
  fault : Option String

/-- A reachable store holding nothing. -/
def Client.empty : Client := ⟨fun _ => none, none⟩

/-- Modelled from the spec: `redis.Client.Get(ctx, key).Result()` with the
store's clock at `clock`.  A missing or expired key gives `redis.Nil`; an entry
is live strictly before its expiry. -/
def Client.Get (c : Client) (clock : Int) (key : String) : Except Error String :=
  match c.fault with
  | some msg => .error (Error.transport msg)
  | none =>
    match c.db key with
    | none => .error Error.Nil
    | some e => if clock < e.expiresAt then .ok e.value else .error Error.Nil

/-- Modelled from the spec: `redis.Client.Set(ctx, key, value, expiration).Err()`
with the store's clock at `clock`: the entry of `key` is replaced and expires
`expiration` later.  Every expiration in the source is positive. -/
def Client.Set (c : Client) (clock : Int) (key : String) (value : Arg)
    (expiration : Duration) : Client × Option Error :=
  match c.fault with
  | some msg => (c, some (Error.transport msg))
  | none =>
    (⟨fun k => if k = key then some ⟨value.text, clock + expiration⟩ else c.db k, none⟩, none)

/-- Modelled from the spec: `redis.Client.Del(ctx, key).Err()`: the entry of
`key`, if any, is removed; removing nothing is not an error. -/
def Client.Del (c : Client) (key : String) : Client × Option Error :=
  match c.fault with
  | some msg => (c, some (Error.transport msg))
  | none => (⟨fun k => if k = key then none else c.db k, none⟩, none)

/-! ## `server/redisstate.go` -/

/-- Top-level key prefix (the Go variable of the same name). -/
def RedisPrefix : String := "rpc-endpoint:"

/-- Enable lookup of timeSentToRelay by txHash. -/
def RedisPrefixTxSentToRelay : String := RedisPrefix ++ "tx-sent-to-relay:"

/-- One day. -/
def RedisExpiryTxSentToRelay : Duration := 24 * Hour

/-- Enable lookup of txHash by txFrom+nonce. -/
def RedisPrefixTxHashForSenderAndNonce : String := RedisPrefix ++ "txsender-and-nonce-to-txhash:"

/-- One day. -/
def RedisExpiryTxHashForSenderAndNonce : Duration := 24 * Hour

/-- Nonce-fix of an account (with number of times sent). -/
def RedisPrefixNonceFixForAccount : String := RedisPrefix ++ "txsender-with-nonce-fix:"

/-- Two hours. -/
def RedisExpiryNonceFixForAccount : Duration := 2 * Hour

/-- Enable lookup of txFrom by txHash. -/
def RedisPrefixSenderOfTxHash : String := RedisPrefix ++ "txsender-of-txhash:"

/-- One day. -/
def RedisExpirySenderOfTxHash : Duration := 24 * Hour

/-- Enable lookup of last txHash sent by txFrom. -/
def RedisPrefixLastTxHashOfAccount : String := RedisPrefix ++ "last-txhash-of-txsender:"

/-- One day. -/
def RedisExpiryLastTxHashOfAccount : Duration := 24 * Hour

/-- Key of the relay-forward record of `txHash`. -/
def RedisKeyTxSentToRelay (tables : Char → Char) (txHash : String) : String :=
  RedisPrefixTxSentToRelay ++ ToLower tables txHash

/-- Key of the (sender, nonce) slot:
`fmt.Sprintf("%s%s_%d", prefix, strings.ToLower(txFrom), nonce)`. -/
def RedisKeyTxHashForSenderAndNonce (tables : Char → Char) (txFrom : String) (nonce : Nat) :
    String :=
  RedisPrefixTxHashForSenderAndNonce ++ ToLower tables txFrom ++ "_" ++ FormatUint nonce

/-- Key of the nonce-fix counter of `txFrom`. -/
def RedisKeyNonceFixForAccount (tables : Char → Char) (txFrom : String) : String :=
  RedisPrefixNonceFixForAccount ++ ToLower tables txFrom

/-- Key of the sender of `txHash`. -/
def RedisKeySenderOfTxHash (tables : Char → Char) (txHash : String) : String :=
  RedisPrefixSenderOfTxHash ++ ToLower tables txHash

/-- Key of the last transaction hash of `txFrom`. -/
def RedisKeyLastTxHashOfAccount (tables : Char → Char) (txFrom : String) : String :=
  RedisPrefixLastTxHashOfAccount ++ ToLower tables txFrom

/-- The store: a handle on the Redis client. -/
structure RedisState where
  RedisClient : Client

/-- Record that `txHash` was sent to the relay at `Now()` (the process clock,
`Now`); `clock` is the store's clock during the call. -/
def RedisState.SetTxSentToRelay (tables : Char → Char) (s : RedisState) (clock : Int)
    (Now : Time) (txHash : String) : RedisState × Option Error :=
  let key := RedisKeyTxSentToRelay tables txHash
  let r := s.RedisClient.Set clock key (Arg.int64 Now.UTC.Unix) RedisExpiryTxSentToRelay
  (⟨r.1⟩, r.2)

/-- Look up when `txHash` was sent to the relay: `(timeSent, found, err)`. -/
def RedisState.GetTxSentToRelay (tables : Char → Char) (s : RedisState) (clock : Int)
    (txHash : String) : Time × Bool × Option Error :=
  let key := RedisKeyTxSentToRelay tables txHash
  match s.RedisClient.Get clock key with
  | .error Error.Nil => (Time.zero, false, none)
  | .error err => (Time.zero, false, some err)
  | .ok val =>
    match Atoi val with
    | .error err => (Time.zero, true, some err)
    | .ok timestampInt => (Unix (toInt64 timestampInt) 0, true, none)

/-- Record `txHash` as the transaction of (`txFrom`, `nonce`). -/
def RedisState.SetTxHashForSenderAndNonce (tables : Char → Char) (s : RedisState) (clock : Int)
    (txFrom : String) (nonce : Nat) (txHash : String) : RedisState × Option Error :=
  let key := RedisKeyTxHashForSenderAndNonce tables txFrom nonce
  let r := s.RedisClient.Set clock key (Arg.str (ToLower tables txHash))
    RedisExpiryTxHashForSenderAndNonce
  (⟨r.1⟩, r.2)

/-- Look up the transaction of (`txFrom`, `nonce`): `(txHash, found, err)`. -/
def RedisState.GetTxHashForSenderAndNonce (tables : Char → Char) (s : RedisState) (clock : Int)
    (txFrom : String) (nonce : Nat) : String × Bool × Option Error :=
  let key := RedisKeyTxHashForSenderAndNonce tables txFrom nonce
  match s.RedisClient.Get clock key with
  | .error Error.Nil => ("", false, none)
  | .error err => ("", false, some err)
  | .ok txHash => (txHash, true, none)

/-- Record the number of nonce-fix attempts of `txFrom`. -/
def RedisState.SetNonceFixForAccount (tables : Char → Char) (s : RedisState) (clock : Int)
    (txFrom : String) (numTimesSent : Nat) : RedisState × Option Error :=
  let key := RedisKeyNonceFixForAccount tables txFrom
  let r := s.RedisClient.Set clock key (Arg.uint64 numTimesSent) RedisExpiryNonceFixForAccount
  (⟨r.1⟩, r.2)

/-- Delete the nonce-fix counter of `txFrom`. -/
def RedisState.DelNonceFixForAccount (tables : Char → Char) (s : RedisState)
    (txFrom : String) : RedisState × Option Error :=
  let key := RedisKeyNonceFixForAccount tables txFrom
  let r := s.RedisClient.Del key
  (⟨r.1⟩, r.2)

/-- Look up the nonce-fix counter of `txFrom`: `(numTimesSent, found, err)`. -/
def RedisState.GetNonceFixForAccount (tables : Char → Char) (s : RedisState) (clock : Int)
    (txFrom : String) : Nat × Bool × Option Error :=
  let key := RedisKeyNonceFixForAccount tables txFrom
  match s.RedisClient.Get clock key with
  | .error Error.Nil => (0, false, none)
  | .error err => (0, false, some err)
  | .ok val =>
    match ParseUint val with
    | .error err => (0, true, some err)
    | .ok numTimesSent => (numTimesSent, true, none)

/-- Record `txFrom` as the sender of `txHash`. -/
def RedisState.SetSenderOfTxHash (tables : Char → Char) (s : RedisState) (clock : Int)
    (txHash : String) (txFrom : String) : RedisState × Option Error :=
  let key := RedisKeySenderOfTxHash tables txHash
  let r := s.RedisClient.Set clock key (Arg.str (ToLower tables txFrom)) RedisExpirySenderOfTxHash
  (⟨r.1⟩, r.2)

/-- Look up the sender of `txHash`: `(txSender, found, err)`. -/
def RedisState.GetSenderOfTxHash (tables : Char → Char) (s : RedisState) (clock : Int)
    (txHash : String) : String × Bool × Option Error :=
  let key := RedisKeySenderOfTxHash tables txHash
  match s.RedisClient.Get clock key with
  | .error Error.Nil => ("", false, none)
  | .error err => ("", false, some err)
  | .ok txSender => (txSender, true, none)

/-- Record `txHash` as the last transaction of `txFrom`. -/
def RedisState.SetLastTxHashOfAccount (tables : Char → Char) (s : RedisState) (clock : Int)
    (txFrom : String) (txHash : String) : RedisState × Option Error :=
  let key := RedisKeyLastTxHashOfAccount tables txFrom
  let r := s.RedisClient.Set clock key (Arg.str (ToLower tables txHash))
    RedisExpiryLastTxHashOfAccount
  (⟨r.1⟩, r.2)

/-- Look up the last transaction of `txFrom`: `(txHash, found, err)`. -/
def RedisState.GetLastTxHashOfAccount (tables : Char → Char) (s : RedisState) (clock : Int)
    (txFrom : String) : String × Bool × Option Error :=
  let key := RedisKeyLastTxHashOfAccount tables txFrom
  match s.RedisClient.Get clock key with
  | .error Error.Nil => ("", false, none)
  | .error err => ("", false, some err)
  | .ok txHash => (txHash, true, none)

/-! ## `server/server.go` -/

/-- The shipped blacklist. -/
def blacklistedIps : List String := ["127.0.0.2"]

/-- The loop of `IsBlacklisted` over the remaining entries of the list. -/
def IsBlacklisted.loop (ip : String) : List String → Bool
  | [] => false
  | entry :: rest => if HasPrefix ip entry then true else IsBlacklisted.loop ip rest

/-- Whether `ip` starts with an entry of `blacklistedIps`. -/
def IsBlacklisted (ip : String) : Bool := IsBlacklisted.loop ip blacklistedIps

/-! ## Auxiliary notions used to state the properties -/

/-- Two runes are equal or are the upper-case and lower-case form of the same
ASCII letter. -/
def SameUpToAsciiCase (x y : Char) : Prop :=
  x = y ∨ (65 ≤ x.toNat ∧ x.toNat ≤ 90 ∧ y.toNat = x.toNat + 32) ∨
    (65 ≤ y.toNat ∧ y.toNat ≤ 90 ∧ x.toNat = y.toNat + 32)

/-- Two strings differ only in the case of ASCII letters. -/
def EqUpToAsciiCase (a b : String) : Prop := List.Forall₂ SameUpToAsciiCase a.data b.data

/-- Go `time.Date(year, month, day, hour, min, sec, 0, time.UTC)` for a valid
civil date of the proleptic Gregorian calendar; used to name instants. -/
def Date (year month day hour min sec : Int) : Time :=
  let y := if month ≤ 2 then year - 1 else year
  let era := y / 400
  let yoe := y - era * 400
  let doy := (153 * (if month > 2 then month - 3 else month + 9) + 2) / 5 + day - 1
  let doe := yoe * 365 + yoe / 4 - yoe / 100 + doy
  let days := era * 146097 + doe - 719468
  ⟨days * 86400 + hour * 3600 + min * 60 + sec, 0⟩

/-- The three outcomes of a lookup with result `r`, given the outcome `get` of
the backing read, the zero value of the index's type and the parser of the
stored text: not-found exactly when the key is missing, an error exactly when
the read failed or the text does not parse, the parsed value otherwise. -/
def ThreeOutcomes {α : Type} (zero : α) (parse : String → Except Error α)
    (get : Except Error String) (r : α × Bool × Option Error) : Prop :=
  (r = (zero, false, none) ↔ get = .error Error.Nil) ∧
  ((r.2.1 = false ∧ r.2.2 = none) ↔ get = .error Error.Nil) ∧
  (r.2.2 ≠ none ↔
    (∃ e, e ≠ Error.Nil ∧ get = .error e) ∨ (∃ v e, get = .ok v ∧ parse v = .error e)) ∧
  (∀ v x, get = .ok v → parse v = .ok x → r = (x, true, none))

/-- The parser of the relay-forward index: `strconv.Atoi` followed by
`time.Unix(int64(timestampInt), 0)`. -/
def parseTimeSent (val : String) : Except Error Time :=
  match Atoi val with
  | .error err => .error err
  | .ok timestampInt => .ok (Unix (toInt64 timestampInt) 0)

/-- The string-valued indices return the stored text as it is. -/
def parseText (val : String) : Except Error String := .ok val

/-- A 64-bit unsigned integer. -/
def IsUint64 (n : Nat) : Prop := n < 2 ^ 64

/-- A 64-bit signed integer. -/
def IsInt64 (i : Int) : Prop := -2 ^ 63 ≤ i ∧ i < 2 ^ 63

/-! ## Auxiliary lemmas -/


theorem lowerRune_congr (tables : Char → Char) {x y : Char} (h : SameUpToAsciiCase x y) :
    lowerRune tables x = lowerRune tables y := by
  rcases h with rfl | ⟨h1, h2, h3⟩ | ⟨h1, h2, h3⟩
  · rfl
  · have hx : x.toNat < 128 := by omega
    have hy : y.toNat < 128 := by omega
    have hny : ¬ (65 ≤ y.toNat ∧ y.toNat ≤ 90) := by omega
    simp only [lowerRune, hx, hy, h1, h2, hny, if_true, if_false, and_self]
    rw [← h3, Char.ofNat_toNat]
  · have hx : x.toNat < 128 := by omega
    have hy : y.toNat < 128 := by omega
    have hnx : ¬ (65 ≤ x.toNat ∧ x.toNat ≤ 90) := by omega
    simp only [lowerRune, hx, hy, h1, h2, hnx, if_true, if_false, and_self]
    rw [← h3, Char.ofNat_toNat]

theorem map_lowerRune_congr (tables : Char → Char) {l₁ l₂ : List Char}
    (h : List.Forall₂ SameUpToAsciiCase l₁ l₂) :
    l₁.map (lowerRune tables) = l₂.map (lowerRune tables) := by
  induction h with
  | nil => rfl
  | cons hxy _ ih => simp only [List.map_cons, lowerRune_congr tables hxy, ih]

theorem ToLower_congr (tables : Char → Char) {a b : String} (h : EqUpToAsciiCase a b) :
    ToLower tables a = ToLower tables b := by
  unfold ToLower
  rw [map_lowerRune_congr tables h]

theorem append_cons_last_inj {α : Type} {a : α} :
    ∀ {x₁ x₂ z₁ z₂ : List α}, a ∉ x₁ → a ∉ x₂ → x₁ ++ a :: z₁ = x₂ ++ a :: z₂ →
      x₁ = x₂ ∧ z₁ = z₂
  | [], [], _, _, _, _, h => by simpa using h
  | [], b :: x₂, _, _, _, h2, h => by
    simp only [List.nil_append, List.cons_append, List.cons.injEq] at h
    exact absurd (h.1 ▸ List.mem_cons_self _ _) h2
  | b :: x₁, [], _, _, h1, _, h => by
    simp only [List.nil_append, List.cons_append, List.cons.injEq] at h
    exact absurd (h.1 ▸ List.mem_cons_self _ _) h1
  | b :: x₁, c :: x₂, _, _, h1, h2, h => by
    simp only [List.cons_append, List.cons.injEq] at h
    have := append_cons_last_inj (fun hm => h1 (List.mem_cons_of_mem _ hm))
      (fun hm => h2 (List.mem_cons_of_mem _ hm)) h.2
    simp [h.1, this.1, this.2]


theorem digitChar_toNat {d : Nat} (h : d < 10) : (digitChar d).toNat = 48 + d := by
  interval_cases d <;> rfl

theorem lsdDigits_isDigit : ∀ (fuel n : Nat) (c : Char), c ∈ lsdDigits fuel n →
    48 ≤ c.toNat ∧ c.toNat ≤ 57
  | 0, _, c, h => by simp [lsdDigits] at h
  | fuel + 1, n, c, h => by
    simp only [lsdDigits, List.mem_cons] at h
    rcases h with rfl | h
    · rw [digitChar_toNat (Nat.mod_lt _ (by decide))]
      have := Nat.mod_lt n (show 10 > 0 by decide)
      omega
    · split at h
      · simp at h
      · exact lsdDigits_isDigit fuel _ c h

theorem lsdDigits_ne_nil (fuel n : Nat) : lsdDigits (fuel + 1) n ≠ [] := by
  simp [lsdDigits]

theorem parseUintLoop_append (maxVal : Nat) :
    ∀ (xs ys : List Char) (acc v : Nat), parseUintLoop maxVal xs acc = .ok v →
      parseUintLoop maxVal (xs ++ ys) acc = parseUintLoop maxVal ys v
  | [], ys, acc, v, h => by
    simp only [parseUintLoop, Except.ok.injEq] at h
    simp [h]
  | c :: cs, ys, acc, v, h => by
    simp only [List.cons_append, parseUintLoop] at h ⊢
    split at h
    · rw [if_pos (by assumption)]
      split at h
      · cases h
      · rw [if_neg (by assumption)]
        split at h
        · cases h
        · rw [if_neg (by assumption)]
          exact parseUintLoop_append maxVal cs ys _ v h
    · cases h

theorem parseUintLoop_digit (acc d : Nat) (hd : d < 10) (h : acc * 10 + d < 2 ^ 64) :
    parseUintLoop (2 ^ 64 - 1) [digitChar d] acc = .ok (acc * 10 + d) := by
  have h1 : ¬ acc ≥ (2 ^ 64 - 1) / 10 + 1 := by norm_num; omega
  have h2 : acc * 10 % 2 ^ 64 = acc * 10 := Nat.mod_eq_of_lt (by omega)
  have h3 : (acc * 10 + d) % 2 ^ 64 = acc * 10 + d := Nat.mod_eq_of_lt h
  have h4 : ¬ (acc * 10 + d < acc * 10 ∨ acc * 10 + d > 2 ^ 64 - 1) := by omega
  simp only [parseUintLoop, digitChar_toNat hd, Nat.add_sub_cancel_left, h2, h3]
  rw [if_pos (by omega), if_neg h1, if_neg h4]

theorem parseUintLoop_lsdDigits : ∀ (fuel n : Nat), n < fuel → n < 2 ^ 64 →
    parseUintLoop (2 ^ 64 - 1) (lsdDigits fuel n).reverse 0 = .ok n
  | 0, _, h, _ => absurd h (Nat.not_lt_zero _)
  | fuel + 1, n, h, hn => by
    simp only [lsdDigits]
    by_cases h0 : n / 10 = 0
    · have hlt : n < 10 := by omega
      rw [if_pos h0, List.reverse_singleton, Nat.mod_eq_of_lt hlt]
      simpa using parseUintLoop_digit 0 n hlt (by omega)
    · rw [if_neg h0, List.reverse_cons]
      have ih := parseUintLoop_lsdDigits fuel (n / 10) (by omega) (by omega)
      rw [parseUintLoop_append _ _ _ _ _ ih,
        parseUintLoop_digit (n / 10) (n % 10) (Nat.mod_lt _ (by decide)) (by omega)]
      congr 1
      omega

theorem ParseUint_FormatUint (n : Nat) (h : n < 2 ^ 64) : ParseUint (FormatUint n) = .ok n := by
  unfold ParseUint FormatUint
  rw [if_neg (by simpa using lsdDigits_ne_nil n n)]
  exact parseUintLoop_lsdDigits (n + 1) n (Nat.lt_succ_self n) h

theorem FormatUint_isDigit (n : Nat) (c : Char) (h : c ∈ (FormatUint n).data) :
    48 ≤ c.toNat ∧ c.toNat ≤ 57 :=
  lsdDigits_isDigit (n + 1) n c (by simpa [FormatUint] using h)

theorem FormatUint_injective {n m : Nat} (hn : n < 2 ^ 64) (hm : m < 2 ^ 64)
    (h : FormatUint n = FormatUint m) : n = m := by
  have := ParseUint_FormatUint n hn
  rw [h, ParseUint_FormatUint m hm] at this
  exact (Except.ok.inj this).symm

theorem toInt64_of_isInt64 {i : Int} (h : IsInt64 i) : toInt64 i = i := by
  unfold IsInt64 at h
  unfold toInt64
  omega

theorem ParseInt_neg (ds : List Char) (un : Nat) (hne : ds ≠ [])
    (hp : parseUintLoop (2 ^ 64 - 1) ds 0 = .ok un) (hle : un ≤ 2 ^ 63) :
    ParseInt (String.mk ('-' :: ds)) = .ok (-(un : Int)) := by
  have h1 : ¬ un > 2 ^ 63 := by omega
  unfold ParseInt
  simp only [if_neg hne, hp, or_true, if_true]
  split_ifs with ha hb
  · exact absurd trivial ha.1
  · exact absurd hb.2 h1
  · refine congrArg _ ?_
    unfold toInt64
    omega

theorem ParseInt_nonneg (c : Char) (cs : List Char) (un : Nat) (hc : 48 ≤ c.toNat ∧ c.toNat ≤ 57)
    (hp : parseUintLoop (2 ^ 64 - 1) (c :: cs) 0 = .ok un) (hlt : un < 2 ^ 63) :
    ParseInt (String.mk (c :: cs)) = .ok (un : Int) := by
  have hplus : c ≠ '+' := by rintro rfl; simp at hc
  have hminus : c ≠ '-' := by rintro rfl; simp at hc
  have h1 : ¬ un ≥ 2 ^ 63 := by omega
  unfold ParseInt
  simp only [hplus, hminus, or_self, if_false, hp]
  rw [if_neg (List.cons_ne_nil c cs)]
  simp only []
  split_ifs with ha hb
  · exact absurd ha.2 h1
  · exact absurd hb.1 id
  · refine congrArg _ ?_
    unfold toInt64
    omega

theorem Atoi_FormatInt (i : Int) (h : IsInt64 i) : Atoi (FormatInt i) = .ok i := by
  have hb := h
  unfold IsInt64 at hb
  unfold Atoi FormatInt
  by_cases hneg : i < 0
  · rw [if_pos hneg]
    have hne : (FormatUint i.natAbs).data ≠ [] := by
      simpa [FormatUint] using lsdDigits_ne_nil i.natAbs i.natAbs
    have hp := ParseUint_FormatUint i.natAbs (by omega)
    unfold ParseUint at hp
    rw [if_neg hne] at hp
    rw [ParseInt_neg _ _ hne hp (by omega)]
    congr 1
    omega
  · rw [if_neg hneg]
    have hp := ParseUint_FormatUint i.toNat (by omega)
    have hd := FormatUint_isDigit i.toNat
    have hne : (FormatUint i.toNat).data ≠ [] := by
      simpa [FormatUint] using lsdDigits_ne_nil i.toNat i.toNat
    unfold ParseUint at hp
    rw [if_neg hne] at hp
    generalize FormatUint i.toNat = str at hp hd hne
    obtain ⟨ds⟩ := str
    cases ds with
    | nil => exact absurd rfl hne
    | cons c cs =>
      rw [ParseInt_nonneg c cs i.toNat (hd c (List.mem_cons_self _ _)) hp (by omega)]
      congr 1
      omega


theorem Unix_toInt64 {x : Int} (h : IsInt64 x) : Unix (toInt64 x) 0 = ⟨x, 0⟩ := by
  unfold Unix
  rw [toInt64_of_isInt64 h]
  simp only [Int.zero_ediv, Int.zero_emod, add_zero, toInt64_of_isInt64 h, Int.toNat_zero]

theorem Client.Set_fault (c : Client) (clock : Int) (key : String) (v : Arg) (ttl : Duration) :
    (c.Set clock key v ttl).1.fault = c.fault := by
  unfold Client.Set
  cases h : c.fault <;> simp [h]

theorem Client.Set_err (c : Client) (clock : Int) (key : String) (v : Arg) (ttl : Duration) :
    (c.Set clock key v ttl).2 = none ↔ c.fault = none := by
  unfold Client.Set
  cases h : c.fault <;> simp

theorem Client.Set_db (c : Client) (hc : c.fault = none) (clock : Int) (key : String) (v : Arg)
    (ttl : Duration) : (c.Set clock key v ttl).1.db key = some ⟨v.text, clock + ttl⟩ := by
  simp [Client.Set, hc]

theorem Client.Get_Set_same (c : Client) (hc : c.fault = none) (clock clock' : Int)
    (key : String) (v : Arg) (ttl : Duration) :
    (c.Set clock key v ttl).1.Get clock' key =
      if clock' < clock + ttl then .ok v.text else .error Error.Nil := by
  simp [Client.Set, Client.Get, hc]

theorem Client.Get_Set_other (c : Client) (clock clock' : Int) {key k : String} (h : k ≠ key)
    (v : Arg) (ttl : Duration) : (c.Set clock key v ttl).1.Get clock' k = c.Get clock' k := by
  unfold Client.Set Client.Get
  cases hc : c.fault <;> simp [hc, h]

theorem Client.Del_fault (c : Client) (key : String) : (c.Del key).1.fault = c.fault := by
  unfold Client.Del
  cases h : c.fault <;> simp [h]

theorem Client.Del_err (c : Client) (key : String) : (c.Del key).2 = none ↔ c.fault = none := by
  unfold Client.Del
  cases h : c.fault <;> simp

theorem Client.Get_Del_same (c : Client) (hc : c.fault = none) (clock' : Int) (key : String) :
    (c.Del key).1.Get clock' key = .error Error.Nil := by
  simp [Client.Del, Client.Get, hc]

theorem Client.Get_Del_other (c : Client) (clock' : Int) {key k : String} (h : k ≠ key) :
    (c.Del key).1.Get clock' k = c.Get clock' k := by
  unfold Client.Del Client.Get
  cases hc : c.fault <;> simp [hc, h]

theorem Client.Del_absent (c : Client) (hc : c.fault = none) (key : String)
    (h : c.db key = none) : c.Del key = (c, none) := by
  obtain ⟨db, fault⟩ := c
  simp only at hc h
  subst hc
  simp only [Client.Del, Prod.mk.injEq, Client.mk.injEq, and_true]
  funext k
  by_cases hk : k = key
  · simp [hk, h]
  · simp [hk]

theorem eqUpToAsciiCase_refl (a : String) : EqUpToAsciiCase a a := by
  unfold EqUpToAsciiCase
  induction a.data with
  | nil => exact List.Forall₂.nil
  | cons x xs ih => exact List.Forall₂.cons (Or.inl rfl) ih

theorem GetTxSentToRelay_Set (tables : Char → Char) (s : RedisState)
    (hs : s.RedisClient.fault = none) (clock clock' : Int) (T : Time) (hT : IsInt64 T.Unix)
    (h : String) :
    (s.SetTxSentToRelay tables clock T h).1.GetTxSentToRelay tables clock' h =
      if clock' < clock + RedisExpiryTxSentToRelay then (⟨T.Unix, 0⟩, true, none)
      else (Time.zero, false, none) := by
  simp only [RedisState.SetTxSentToRelay, RedisState.GetTxSentToRelay,
    Client.Get_Set_same _ hs]
  split_ifs with hl
  · simp only [Arg.text, Time.UTC, Atoi_FormatInt _ hT, Unix_toInt64 hT]
  · rfl

/-! ## Properties of the store and of the blacklist -/

/-- C1 (relay-forward round trip): on a store whose operations succeed, after
`SetTxSentToRelay(h)` runs with `Now() = T`, `GetTxSentToRelay` of `h`, or of any
spelling of `h` that differs only in the case of ASCII letters, before the
24h TTL has elapsed returns `(t, true, nil)` where `t` has the Unix seconds of
`T` and zero nanoseconds; the `Set` itself returns no error. -/
theorem relay_forward_round_trip (tables : Char → Char) (s : RedisState)
    (hs : s.RedisClient.fault = none) (h : String) (T : Time) (hT : IsInt64 T.Unix)
    (clock clock' : Int) (hlive : clock' < clock + RedisExpiryTxSentToRelay) :
    (s.SetTxSentToRelay tables clock T h).2 = none ∧
    (s.SetTxSentToRelay tables clock T h).1.GetTxSentToRelay tables clock' h
      = (⟨T.Unix, 0⟩, true, none) ∧
    ∀ h', EqUpToAsciiCase h h' →
      (s.SetTxSentToRelay tables clock T h).1.GetTxSentToRelay tables clock' h'
        = (⟨T.Unix, 0⟩, true, none) := by
  have key : (s.SetTxSentToRelay tables clock T h).1.GetTxSentToRelay tables clock' h
      = (⟨T.Unix, 0⟩, true, none) := by
    rw [GetTxSentToRelay_Set tables s hs clock clock' T hT h, if_pos hlive]
  refine ⟨?_, key, ?_⟩
  · simp only [RedisState.SetTxSentToRelay]
    exact (Client.Set_err _ _ _ _ _).2 hs
  · intro h' hh
    rw [← key]
    simp only [RedisState.GetTxSentToRelay, RedisKeyTxSentToRelay, ToLower_congr tables hh]

/-- Witness of C1: with the clock at 1700000000 (2023-11-14T22:13:20Z),
recording "0xDEADBEEF" on the empty store and looking up "0xdeadbeef" returns
that instant, found, no error. -/
theorem relay_forward_round_trip_witness :
    Date 2023 11 14 22 13 20 = ⟨1700000000, 0⟩ ∧
    ((RedisState.mk Client.empty).SetTxSentToRelay id 0 ⟨1700000000, 0⟩ "0xDEADBEEF").1.GetTxSentToRelay
      id 0 "0xdeadbeef" = (Date 2023 11 14 22 13 20, true, none) :=
  ⟨by decide,
   (relay_forward_round_trip id ⟨Client.empty⟩ rfl "0xDEADBEEF" ⟨1700000000, 0⟩
      (by unfold IsInt64; decide) 0 0 (by decide)).2.2 "0xdeadbeef"
      (by unfold EqUpToAsciiCase SameUpToAsciiCase; decide)⟩


theorem threeOutcomes_intro {α : Type} (zero : α) (parse : String → Except Error α)
    (get : Except Error String) (r : α × Bool × Option Error)
    (hNil : get = .error Error.Nil → r = (zero, false, none))
    (hErr : ∀ e, e ≠ Error.Nil → get = .error e → r = (zero, false, some e))
    (hBad : ∀ v e, get = .ok v → parse v = .error e → r = (zero, true, some e))
    (hOk : ∀ v x, get = .ok v → parse v = .ok x → r = (x, true, none)) :
    ThreeOutcomes zero parse get r := by
  unfold ThreeOutcomes
  cases hg : get with
  | error e =>
    by_cases he : e = Error.Nil
    · subst he
      rw [hNil hg]
      simp
    · rw [hErr e he hg]
      simp [he]
  | ok v =>
    cases hp : parse v with
    | error e =>
      rw [hBad v e hg hp]
      simp only [hp, Prod.mk.injEq, Bool.true_eq_false, reduceCtorEq, and_false, false_and,
        false_iff, not_false_eq_true, ne_eq, true_iff, exists_and_right, exists_false,
        Except.ok.injEq, exists_eq_left', exists_const, or_true, true_and, and_true]
      refine ⟨Or.inr ⟨v, e, rfl, hp⟩, ?_⟩
      rintro v' x' rfl hx
      rw [hp] at hx
      cases hx
    | ok x =>
      rw [hOk v x hg hp]
      simp only [hp, Prod.mk.injEq, Bool.true_eq_false, reduceCtorEq, and_false, false_and,
        false_iff, not_false_eq_true, ne_eq, not_true_eq_false, exists_and_right, exists_false,
        Except.ok.injEq, exists_eq_left', exists_const, or_self, true_and, and_true]
      refine ⟨?_, ?_⟩
      · rintro (hf | ⟨v', e', rfl, he'⟩)
        · exact hf
        · rw [hp] at he'
          cases he'
      · rintro v' x' rfl hx
        rw [hp] at hx
        cases hx
        rfl

/-- C2 (three-outcome lookups): for each of the five lookups, on every store
state and every input, the result is `(zero value, false, nil)` exactly when the
backing read reports the key missing (and `found = false` with `err = nil` is
reported in no other case); the error is non-nil exactly when the backing read
fails with another error or the stored text does not parse into the index's
type; otherwise the result is `(parsed value, true, nil)`.  On a reachable
store a key that holds no entry is the missing case, so its lookup is
not-found without error. -/
theorem lookups_three_outcomes (tables : Char → Char) (s : RedisState) (clock : Int)
    (ident : String) (nonce : Nat) :
    ThreeOutcomes Time.zero parseTimeSent
      (s.RedisClient.Get clock (RedisKeyTxSentToRelay tables ident))
      (s.GetTxSentToRelay tables clock ident) ∧
    ThreeOutcomes "" parseText
      (s.RedisClient.Get clock (RedisKeyTxHashForSenderAndNonce tables ident nonce))
      (s.GetTxHashForSenderAndNonce tables clock ident nonce) ∧
    ThreeOutcomes 0 ParseUint
      (s.RedisClient.Get clock (RedisKeyNonceFixForAccount tables ident))
      (s.GetNonceFixForAccount tables clock ident) ∧
    ThreeOutcomes "" parseText
      (s.RedisClient.Get clock (RedisKeySenderOfTxHash tables ident))
      (s.GetSenderOfTxHash tables clock ident) ∧
    ThreeOutcomes "" parseText
      (s.RedisClient.Get clock (RedisKeyLastTxHashOfAccount tables ident))
      (s.GetLastTxHashOfAccount tables clock ident) ∧
    (s.RedisClient.fault = none →
      (s.RedisClient.db (RedisKeyTxSentToRelay tables ident) = none →
        s.GetTxSentToRelay tables clock ident = (Time.zero, false, none)) ∧
      (s.RedisClient.db (RedisKeyTxHashForSenderAndNonce tables ident nonce) = none →
        s.GetTxHashForSenderAndNonce tables clock ident nonce = ("", false, none)) ∧
      (s.RedisClient.db (RedisKeyNonceFixForAccount tables ident) = none →
        s.GetNonceFixForAccount tables clock ident = (0, false, none)) ∧
      (s.RedisClient.db (RedisKeySenderOfTxHash tables ident) = none →
        s.GetSenderOfTxHash tables clock ident = ("", false, none)) ∧
      (s.RedisClient.db (RedisKeyLastTxHashOfAccount tables ident) = none →
        s.GetLastTxHashOfAccount tables clock ident = ("", false, none))) := by
  have hmiss : ∀ key : String, s.RedisClient.fault = none → s.RedisClient.db key = none →
      s.RedisClient.Get clock key = .error Error.Nil := fun key hf hk => by
    simp only [Client.Get, hf, hk]
  refine ⟨?_, ?_, ?_, ?_, ?_, fun hf => ⟨fun hk => ?_, fun hk => ?_, fun hk => ?_, fun hk => ?_,
    fun hk => ?_⟩⟩
  · apply threeOutcomes_intro
    · intro hg
      simp only [RedisState.GetTxSentToRelay, hg]
    · intro e he hg
      cases e <;> first | exact absurd rfl he | simp only [RedisState.GetTxSentToRelay, hg]
    · intro v e hg hp
      unfold parseTimeSent at hp
      cases ha : Atoi v with
      | error e' =>
        rw [ha] at hp
        cases hp
        simp only [RedisState.GetTxSentToRelay, hg, ha]
      | ok x => rw [ha] at hp; cases hp
    · intro v x hg hp
      unfold parseTimeSent at hp
      cases ha : Atoi v with
      | error e' => rw [ha] at hp; cases hp
      | ok y =>
        rw [ha] at hp
        cases hp
        simp only [RedisState.GetTxSentToRelay, hg, ha]
  · apply threeOutcomes_intro
    · intro hg
      simp only [RedisState.GetTxHashForSenderAndNonce, hg]
    · intro e he hg
      cases e <;> first | exact absurd rfl he | simp only [RedisState.GetTxHashForSenderAndNonce, hg]
    · intro v e _ hp
      cases hp
    · intro v x hg hp
      cases hp
      simp only [RedisState.GetTxHashForSenderAndNonce, hg]
  · apply threeOutcomes_intro
    · intro hg
      simp only [RedisState.GetNonceFixForAccount, hg]
    · intro e he hg
      cases e <;> first | exact absurd rfl he | simp only [RedisState.GetNonceFixForAccount, hg]
    · intro v e hg hp
      simp only [RedisState.GetNonceFixForAccount, hg, hp]
    · intro v x hg hp
      simp only [RedisState.GetNonceFixForAccount, hg, hp]
  · apply threeOutcomes_intro
    · intro hg
      simp only [RedisState.GetSenderOfTxHash, hg]
    · intro e he hg
      cases e <;> first | exact absurd rfl he | simp only [RedisState.GetSenderOfTxHash, hg]
    · intro v e _ hp
      cases hp
    · intro v x hg hp
      cases hp
      simp only [RedisState.GetSenderOfTxHash, hg]
  · apply threeOutcomes_intro
    · intro hg
      simp only [RedisState.GetLastTxHashOfAccount, hg]
    · intro e he hg
      cases e <;> first | exact absurd rfl he | simp only [RedisState.GetLastTxHashOfAccount, hg]
    · intro v e _ hp
      cases hp
    · intro v x hg hp
      cases hp
      simp only [RedisState.GetLastTxHashOfAccount, hg]
  · simp only [RedisState.GetTxSentToRelay, hmiss _ hf hk]
  · simp only [RedisState.GetTxHashForSenderAndNonce, hmiss _ hf hk]
  · simp only [RedisState.GetNonceFixForAccount, hmiss _ hf hk]
  · simp only [RedisState.GetSenderOfTxHash, hmiss _ hf hk]
  · simp only [RedisState.GetLastTxHashOfAccount, hmiss _ hf hk]

/-- Witness of C2: on the empty store a lookup is not-found without error; a
failing client gives the transport error with `found = false`; a stored text
that is not a number gives a parse error with `found = true`. -/
theorem lookups_three_outcomes_witness :
    (RedisState.mk Client.empty).GetNonceFixForAccount id 0 "0xAcc" = (0, false, none) ∧
    (RedisState.mk ⟨fun _ => none, some "connection refused"⟩).GetNonceFixForAccount id 0 "0xAcc"
      = (0, false, some (Error.transport "connection refused")) ∧
    (RedisState.mk ⟨fun _ => some ⟨"abc", 1⟩, none⟩).GetNonceFixForAccount id 0 "0xAcc"
      = (0, true, some Error.invalidNumber) ∧
    (RedisState.mk ⟨fun _ => some ⟨"abc", 1⟩, none⟩).GetTxSentToRelay id 0 "0xAcc"
      = (Time.zero, true, some Error.invalidNumber) :=
  ⟨((lookups_three_outcomes id ⟨Client.empty⟩ 0 "0xAcc" 0).2.2.2.2.2 rfl).2.2.1 rfl,
   by decide, by decide, by decide⟩


/-- C3 (case-insensitive keys): for two identifiers that differ only in the
case of ASCII letters, each of the five key functions builds the same key (for
every nonce); hence on every store state each lookup under one spelling
returns what it returns under the other, and each record or delete under one
spelling has the effect it has under the other. -/
theorem keys_case_insensitive (tables : Char → Char) (a b : String) (nonce : Nat)
    (hab : EqUpToAsciiCase a b) :
    (RedisKeyTxSentToRelay tables a = RedisKeyTxSentToRelay tables b ∧
     RedisKeyTxHashForSenderAndNonce tables a nonce
       = RedisKeyTxHashForSenderAndNonce tables b nonce ∧
     RedisKeyNonceFixForAccount tables a = RedisKeyNonceFixForAccount tables b ∧
     RedisKeySenderOfTxHash tables a = RedisKeySenderOfTxHash tables b ∧
     RedisKeyLastTxHashOfAccount tables a = RedisKeyLastTxHashOfAccount tables b) ∧
    (∀ (s : RedisState) (clock : Int),
      s.GetTxSentToRelay tables clock a = s.GetTxSentToRelay tables clock b ∧
      s.GetTxHashForSenderAndNonce tables clock a nonce
        = s.GetTxHashForSenderAndNonce tables clock b nonce ∧
      s.GetNonceFixForAccount tables clock a = s.GetNonceFixForAccount tables clock b ∧
      s.GetSenderOfTxHash tables clock a = s.GetSenderOfTxHash tables clock b ∧
      s.GetLastTxHashOfAccount tables clock a = s.GetLastTxHashOfAccount tables clock b) ∧
    (∀ (s : RedisState) (clock : Int) (T : Time) (v : String) (n : Nat),
      s.SetTxSentToRelay tables clock T a = s.SetTxSentToRelay tables clock T b ∧
      s.SetTxHashForSenderAndNonce tables clock a nonce v
        = s.SetTxHashForSenderAndNonce tables clock b nonce v ∧
      s.SetNonceFixForAccount tables clock a n = s.SetNonceFixForAccount tables clock b n ∧
      s.DelNonceFixForAccount tables a = s.DelNonceFixForAccount tables b ∧
      s.SetSenderOfTxHash tables clock a v = s.SetSenderOfTxHash tables clock b v ∧
      s.SetLastTxHashOfAccount tables clock a v = s.SetLastTxHashOfAccount tables clock b v) := by
  have hl := ToLower_congr tables hab
  have k1 : RedisKeyTxSentToRelay tables a = RedisKeyTxSentToRelay tables b := by
    simp only [RedisKeyTxSentToRelay, hl]
  have k2 : RedisKeyTxHashForSenderAndNonce tables a nonce
      = RedisKeyTxHashForSenderAndNonce tables b nonce := by
    simp only [RedisKeyTxHashForSenderAndNonce, hl]
  have k3 : RedisKeyNonceFixForAccount tables a = RedisKeyNonceFixForAccount tables b := by
    simp only [RedisKeyNonceFixForAccount, hl]
  have k4 : RedisKeySenderOfTxHash tables a = RedisKeySenderOfTxHash tables b := by
    simp only [RedisKeySenderOfTxHash, hl]
  have k5 : RedisKeyLastTxHashOfAccount tables a = RedisKeyLastTxHashOfAccount tables b := by
    simp only [RedisKeyLastTxHashOfAccount, hl]
  refine ⟨⟨k1, k2, k3, k4, k5⟩, fun s clock => ⟨?_, ?_, ?_, ?_, ?_⟩,
    fun s clock T v n => ⟨?_, ?_, ?_, ?_, ?_, ?_⟩⟩
  · simp only [RedisState.GetTxSentToRelay, k1]
  · simp only [RedisState.GetTxHashForSenderAndNonce, k2]
  · simp only [RedisState.GetNonceFixForAccount, k3]
  · simp only [RedisState.GetSenderOfTxHash, k4]
  · simp only [RedisState.GetLastTxHashOfAccount, k5]
  · simp only [RedisState.SetTxSentToRelay, k1]
  · simp only [RedisState.SetTxHashForSenderAndNonce, k2]
  · simp only [RedisState.SetNonceFixForAccount, k3]
  · simp only [RedisState.DelNonceFixForAccount, k3]
  · simp only [RedisState.SetSenderOfTxHash, k4]
  · simp only [RedisState.SetLastTxHashOfAccount, k5]

/-- Witness of C3: "0xABC" and "0xabc" differ only in case and give the same
relay-forward key, which is the lower-case one. -/
theorem keys_case_insensitive_witness :
    EqUpToAsciiCase "0xABC" "0xabc" ∧
    RedisKeyTxSentToRelay id "0xABC" = RedisKeyTxSentToRelay id "0xabc" ∧
    RedisKeyTxSentToRelay id "0xABC" = "rpc-endpoint:tx-sent-to-relay:0xabc" :=
  ⟨by unfold EqUpToAsciiCase SameUpToAsciiCase; decide,
   (keys_case_insensitive id "0xABC" "0xabc" 0
      (by unfold EqUpToAsciiCase SameUpToAsciiCase; decide)).1.1,
   by decide⟩

theorem FormatUint_no_underscore (n : Nat) : '_' ∉ (FormatUint n).data := by
  intro h
  have := FormatUint_isDigit n '_' h
  simp at this

theorem senderNonceKey_inj (tables : Char → Char) {s1 s2 : String} {n1 n2 : Nat}
    (h1 : IsUint64 n1) (h2 : IsUint64 n2)
    (h : RedisKeyTxHashForSenderAndNonce tables s1 n1
      = RedisKeyTxHashForSenderAndNonce tables s2 n2) :
    ToLower tables s1 = ToLower tables s2 ∧ n1 = n2 := by
  unfold RedisKeyTxHashForSenderAndNonce at h
  have hd := congrArg String.data h
  simp only [String.data_append, List.append_assoc] at hd
  have hd := List.append_cancel_left hd
  have hr := congrArg List.reverse hd
  simp only [List.reverse_append] at hr
  have hu : ("_" : String).data.reverse = ['_'] := rfl
  rw [hu, List.append_assoc, List.append_assoc, List.singleton_append,
    List.singleton_append] at hr
  obtain ⟨e1, e2⟩ := append_cons_last_inj
    (by simpa using FormatUint_no_underscore n1) (by simpa using FormatUint_no_underscore n2) hr
  refine ⟨String.ext (List.reverse_injective e2), ?_⟩
  exact FormatUint_injective h1 h2 (String.ext (List.reverse_injective e1))

/-- C5 (distinct (sender, nonce) slots never collide): for all senders and all
64-bit nonces, two slot keys are equal exactly when the lower-cased senders are
equal and the nonces are equal; so after one record for (sender, n1) on the
empty store, the lookup of (sender, n2) with another nonce is not-found without
error. -/
theorem sender_nonce_slots_distinct (tables : Char → Char) (s1 s2 : String) (n1 n2 : Nat)
    (h1 : IsUint64 n1) (h2 : IsUint64 n2) :
    (RedisKeyTxHashForSenderAndNonce tables s1 n1 = RedisKeyTxHashForSenderAndNonce tables s2 n2
      ↔ ToLower tables s1 = ToLower tables s2 ∧ n1 = n2) ∧
    (n1 ≠ n2 → ∀ (clock clock' : Int) (h : String),
      ((RedisState.mk Client.empty).SetTxHashForSenderAndNonce tables clock s1 n1
        h).1.GetTxHashForSenderAndNonce tables clock' s1 n2 = ("", false, none)) := by
  refine ⟨⟨senderNonceKey_inj tables h1 h2, ?_⟩, ?_⟩
  · rintro ⟨hl, rfl⟩
    simp only [RedisKeyTxHashForSenderAndNonce, hl]
  · intro hne clock clock' h
    have hk : RedisKeyTxHashForSenderAndNonce tables s1 n2
        ≠ RedisKeyTxHashForSenderAndNonce tables s1 n1 :=
      fun hk => hne (senderNonceKey_inj tables h2 h1 hk).2.symm
    simp only [RedisState.SetTxHashForSenderAndNonce, RedisState.GetTxHashForSenderAndNonce,
      Client.Get_Set_other _ _ _ hk]
    rfl

/-- Witness of C5: senders containing '_' and digits do not collide
("a_1" with nonce 2 against "a" with nonce 12 and against "a_1" with nonce 3),
and after recording nonce 5 the lookup of nonce 6 is not-found. -/
theorem sender_nonce_slots_distinct_witness :
    RedisKeyTxHashForSenderAndNonce id "a_1" 2 ≠ RedisKeyTxHashForSenderAndNonce id "a" 12 ∧
    ((RedisState.mk Client.empty).SetTxHashForSenderAndNonce id 0 "0xAAA" 5
        "0xBBB").1.GetTxHashForSenderAndNonce id 0 "0xAAA" 6 = ("", false, none) :=
  ⟨fun h => absurd ((sender_nonce_slots_distinct id "a_1" "a" 2 12 (by unfold IsUint64; decide)
      (by unfold IsUint64; decide)).1.1 h).2 (by decide),
   (sender_nonce_slots_distinct id "0xAAA" "0xAAA" 5 6 (by unfold IsUint64; decide)
      (by unfold IsUint64; decide)).2 (by decide) 0 0 "0xBBB"⟩


theorem GetTxHashForSenderAndNonce_Set (tables : Char → Char) (s : RedisState)
    (hs : s.RedisClient.fault = none) (clock clock' : Int) (txFrom : String) (nonce : Nat)
    (txHash : String) :
    (s.SetTxHashForSenderAndNonce tables clock txFrom nonce txHash).1.GetTxHashForSenderAndNonce
        tables clock' txFrom nonce =
      if clock' < clock + RedisExpiryTxHashForSenderAndNonce then
        (ToLower tables txHash, true, none)
      else ("", false, none) := by
  simp only [RedisState.SetTxHashForSenderAndNonce, RedisState.GetTxHashForSenderAndNonce,
    Client.Get_Set_same _ hs]
  split_ifs <;> rfl

theorem GetNonceFixForAccount_Set (tables : Char → Char) (s : RedisState)
    (hs : s.RedisClient.fault = none) (clock clock' : Int) (txFrom : String) (c : Nat)
    (hc : IsUint64 c) :
    (s.SetNonceFixForAccount tables clock txFrom c).1.GetNonceFixForAccount tables clock' txFrom =
      if clock' < clock + RedisExpiryNonceFixForAccount then (c, true, none)
      else (0, false, none) := by
  simp only [RedisState.SetNonceFixForAccount, RedisState.GetNonceFixForAccount,
    Client.Get_Set_same _ hs]
  split_ifs
  · simp only [Arg.text, ParseUint_FormatUint c hc]
  · rfl

theorem GetSenderOfTxHash_Set (tables : Char → Char) (s : RedisState)
    (hs : s.RedisClient.fault = none) (clock clock' : Int) (txHash txFrom : String) :
    (s.SetSenderOfTxHash tables clock txHash txFrom).1.GetSenderOfTxHash tables clock' txHash =
      if clock' < clock + RedisExpirySenderOfTxHash then (ToLower tables txFrom, true, none)
      else ("", false, none) := by
  simp only [RedisState.SetSenderOfTxHash, RedisState.GetSenderOfTxHash,
    Client.Get_Set_same _ hs]
  split_ifs <;> rfl

theorem GetLastTxHashOfAccount_Set (tables : Char → Char) (s : RedisState)
    (hs : s.RedisClient.fault = none) (clock clock' : Int) (txFrom txHash : String) :
    (s.SetLastTxHashOfAccount tables clock txFrom txHash).1.GetLastTxHashOfAccount
        tables clock' txFrom =
      if clock' < clock + RedisExpiryLastTxHashOfAccount then (ToLower tables txHash, true, none)
      else ("", false, none) := by
  simp only [RedisState.SetLastTxHashOfAccount, RedisState.GetLastTxHashOfAccount,
    Client.Get_Set_same _ hs]
  split_ifs <;> rfl

/-- C4 (last-writer-wins with lower-case values): for each of the three
string-valued indices, on a store whose operations succeed, a record followed
by a lookup of the same key (under any spelling that differs only in ASCII
case) before the TTL has elapsed returns the lower-cased value, found, no
error; and after two records of the same key with values `v1` then `v2` the
lookup returns the lower-cased `v2`, which is not the lower-cased `v1` when
these differ. -/
theorem last_writer_wins (tables : Char → Char) (s : RedisState)
    (hs : s.RedisClient.fault = none) (k k' : String) (nonce : Nat) (v1 v2 : String)
    (t1 t2 t3 : Int) (hk : EqUpToAsciiCase k k') (hlive : t3 < t2 + 24 * Hour) :
    ((s.SetTxHashForSenderAndNonce tables t2 k nonce v2).1.GetTxHashForSenderAndNonce
        tables t3 k' nonce = (ToLower tables v2, true, none) ∧
     (s.SetSenderOfTxHash tables t2 k v2).1.GetSenderOfTxHash tables t3 k'
        = (ToLower tables v2, true, none) ∧
     (s.SetLastTxHashOfAccount tables t2 k v2).1.GetLastTxHashOfAccount tables t3 k'
        = (ToLower tables v2, true, none)) ∧
    (((s.SetTxHashForSenderAndNonce tables t1 k nonce v1).1.SetTxHashForSenderAndNonce
        tables t2 k nonce v2).1.GetTxHashForSenderAndNonce tables t3 k nonce
        = (ToLower tables v2, true, none) ∧
     ((s.SetSenderOfTxHash tables t1 k v1).1.SetSenderOfTxHash
        tables t2 k v2).1.GetSenderOfTxHash tables t3 k = (ToLower tables v2, true, none) ∧
     ((s.SetLastTxHashOfAccount tables t1 k v1).1.SetLastTxHashOfAccount
        tables t2 k v2).1.GetLastTxHashOfAccount tables t3 k
        = (ToLower tables v2, true, none)) ∧
    (ToLower tables v1 ≠ ToLower tables v2 →
     (((s.SetTxHashForSenderAndNonce tables t1 k nonce v1).1.SetTxHashForSenderAndNonce
        tables t2 k nonce v2).1.GetTxHashForSenderAndNonce tables t3 k nonce).1
        ≠ ToLower tables v1 ∧
     (((s.SetSenderOfTxHash tables t1 k v1).1.SetSenderOfTxHash
        tables t2 k v2).1.GetSenderOfTxHash tables t3 k).1 ≠ ToLower tables v1 ∧
     (((s.SetLastTxHashOfAccount tables t1 k v1).1.SetLastTxHashOfAccount
        tables t2 k v2).1.GetLastTxHashOfAccount tables t3 k).1 ≠ ToLower tables v1) := by
  have hl := ToLower_congr tables hk
  have a1 : ∀ s : RedisState, s.RedisClient.fault = none →
      (s.SetTxHashForSenderAndNonce tables t2 k nonce v2).1.GetTxHashForSenderAndNonce
        tables t3 k nonce = (ToLower tables v2, true, none) := fun s hs => by
    rw [GetTxHashForSenderAndNonce_Set tables s hs]
    exact if_pos hlive
  have a2 : ∀ s : RedisState, s.RedisClient.fault = none →
      (s.SetSenderOfTxHash tables t2 k v2).1.GetSenderOfTxHash tables t3 k
        = (ToLower tables v2, true, none) := fun s hs => by
    rw [GetSenderOfTxHash_Set tables s hs]
    exact if_pos hlive
  have a3 : ∀ s : RedisState, s.RedisClient.fault = none →
      (s.SetLastTxHashOfAccount tables t2 k v2).1.GetLastTxHashOfAccount tables t3 k
        = (ToLower tables v2, true, none) := fun s hs => by
    rw [GetLastTxHashOfAccount_Set tables s hs]
    exact if_pos hlive
  have f1 : (s.SetTxHashForSenderAndNonce tables t1 k nonce v1).1.RedisClient.fault = none := by
    simp only [RedisState.SetTxHashForSenderAndNonce, Client.Set_fault, hs]
  have f2 : (s.SetSenderOfTxHash tables t1 k v1).1.RedisClient.fault = none := by
    simp only [RedisState.SetSenderOfTxHash, Client.Set_fault, hs]
  have f3 : (s.SetLastTxHashOfAccount tables t1 k v1).1.RedisClient.fault = none := by
    simp only [RedisState.SetLastTxHashOfAccount, Client.Set_fault, hs]
  refine ⟨⟨?_, ?_, ?_⟩, ⟨a1 _ f1, a2 _ f2, a3 _ f3⟩, ?_⟩
  · rw [← a1 s hs]
    simp only [RedisState.GetTxHashForSenderAndNonce, RedisKeyTxHashForSenderAndNonce, hl]
  · rw [← a2 s hs]
    simp only [RedisState.GetSenderOfTxHash, RedisKeySenderOfTxHash, hl]
  · rw [← a3 s hs]
    simp only [RedisState.GetLastTxHashOfAccount, RedisKeyLastTxHashOfAccount, hl]
  · intro hne
    rw [a1 _ f1, a2 _ f2, a3 _ f3]
    exact ⟨fun h => hne h.symm, fun h => hne h.symm, fun h => hne h.symm⟩

/-- Witness of C4: `Record(sender, 5, "0xB1")`, `Record(sender, 5, "0xB2")`,
`Lookup(sender, 5) = ("0xb2", true, nil)`; and `Record("0xAAA", 5, "0xBBB")`,
`Lookup("0xaaa", 5) = ("0xbbb", true, nil)`. -/
theorem last_writer_wins_witness :
    (((RedisState.mk Client.empty).SetTxHashForSenderAndNonce id 0 "0xAAA" 5
        "0xB1").1.SetTxHashForSenderAndNonce id 0 "0xAAA" 5
        "0xB2").1.GetTxHashForSenderAndNonce id 0 "0xAAA" 5 = ("0xb2", true, none) ∧
    ((RedisState.mk Client.empty).SetTxHashForSenderAndNonce id 0 "0xAAA" 5
        "0xBBB").1.GetTxHashForSenderAndNonce id 0 "0xaaa" 5 = ("0xbbb", true, none) :=
  ⟨(last_writer_wins id ⟨Client.empty⟩ rfl "0xAAA" "0xAAA" 5 "0xB1" "0xB2" 0 0 0
      (eqUpToAsciiCase_refl _) (by decide)).2.1.1,
   (last_writer_wins id ⟨Client.empty⟩ rfl "0xAAA" "0xaaa" 5 "0xB1" "0xBBB" 0 0 0
      (by unfold EqUpToAsciiCase SameUpToAsciiCase; decide) (by decide)).1.1⟩

/-- C6 (the nonce-fix counter stores an absolute count): for every account,
every 64-bit count `c` and every prior state of the store, after
`SetNonceFixForAccount(a, c)` succeeds, `GetNonceFixForAccount(a)` before the 2h
TTL has elapsed returns exactly `(c, true, nil)`; in particular the decimal
text of `c` parses back to `c`, and a count stored before does not matter. -/
theorem nonce_fix_absolute_count (tables : Char → Char) (s : RedisState) (a : String) (c : Nat)
    (hc : IsUint64 c) (clock clock' : Int)
    (hset : (s.SetNonceFixForAccount tables clock a c).2 = none)
    (hlive : clock' < clock + RedisExpiryNonceFixForAccount) :
    (s.SetNonceFixForAccount tables clock a c).1.GetNonceFixForAccount tables clock' a
      = (c, true, none) ∧
    ParseUint (FormatUint c) = .ok c ∧
    ∀ (c0 : Nat) (clock0 : Int),
      ((s.SetNonceFixForAccount tables clock0 a c0).1.SetNonceFixForAccount
        tables clock a c).1.GetNonceFixForAccount tables clock' a = (c, true, none) := by
  have hs : s.RedisClient.fault = none := by
    simpa only [RedisState.SetNonceFixForAccount, Client.Set_err] using hset
  refine ⟨?_, ParseUint_FormatUint c hc, fun c0 clock0 => ?_⟩
  · rw [GetNonceFixForAccount_Set tables s hs _ _ _ _ hc, if_pos hlive]
  · have f : (s.SetNonceFixForAccount tables clock0 a c0).1.RedisClient.fault = none := by
      simp only [RedisState.SetNonceFixForAccount, Client.Set_fault, hs]
    rw [GetNonceFixForAccount_Set tables _ f _ _ _ _ hc, if_pos hlive]

/-- Witness of C6: the counts 0 and 2^64 - 1 are read back as written, the
latter over a previously stored 7. -/
theorem nonce_fix_absolute_count_witness :
    ((RedisState.mk Client.empty).SetNonceFixForAccount id 0 "0xAcc" 0).1.GetNonceFixForAccount
      id 0 "0xAcc" = (0, true, none) ∧
    (((RedisState.mk Client.empty).SetNonceFixForAccount id 0 "0xAcc" 7).1.SetNonceFixForAccount
      id 0 "0xAcc" 18446744073709551615).1.GetNonceFixForAccount id 0 "0xAcc"
      = (18446744073709551615, true, none) :=
  ⟨(nonce_fix_absolute_count id ⟨Client.empty⟩ "0xAcc" 0 (by unfold IsUint64; decide) 0 0 rfl
      (by decide)).1,
   (nonce_fix_absolute_count id ⟨Client.empty⟩ "0xAcc" 18446744073709551615
      (by unfold IsUint64; decide) 0 0 rfl (by decide)).2.2 7 0⟩


/-- C7 (nonce-fix delete clears state): on a store whose operations succeed,
after `SetNonceFixForAccount(a, c)` and `DelNonceFixForAccount(a')`, for any
spelling `a'` of `a` up to ASCII case, the delete returns no error and
`GetNonceFixForAccount(a)` returns `(0, false, nil)`; and deleting an account
that has no entry returns no error and leaves the store as it was. -/
theorem nonce_fix_delete_clears (tables : Char → Char) (s : RedisState)
    (hs : s.RedisClient.fault = none) (a a' : String) (c : Nat) (clock clock' : Int)
    (haa : EqUpToAsciiCase a a') :
    ((s.SetNonceFixForAccount tables clock a c).1.DelNonceFixForAccount tables a').2 = none ∧
    ((s.SetNonceFixForAccount tables clock a c).1.DelNonceFixForAccount
        tables a').1.GetNonceFixForAccount tables clock' a = (0, false, none) ∧
    (s.RedisClient.db (RedisKeyNonceFixForAccount tables a) = none →
      s.DelNonceFixForAccount tables a = (s, none)) := by
  have hl := ToLower_congr tables haa
  have f : (s.SetNonceFixForAccount tables clock a c).1.RedisClient.fault = none := by
    simp only [RedisState.SetNonceFixForAccount, Client.Set_fault, hs]
  refine ⟨?_, ?_, fun hnone => ?_⟩
  · simp only [RedisState.DelNonceFixForAccount]
    exact (Client.Del_err _ _).2 f
  · simp only [RedisState.DelNonceFixForAccount, RedisState.GetNonceFixForAccount,
      RedisKeyNonceFixForAccount, ← hl]
    rw [Client.Get_Del_same _ f]
  · simp only [RedisState.DelNonceFixForAccount, Client.Del_absent _ hs _ hnone]

/-- Witness of C7: `Record(account, 2)`, `Delete(account)`, `Lookup(account)` is
not-found on a store that was empty, and a delete on the empty store changes
nothing. -/
theorem nonce_fix_delete_clears_witness :
    (((RedisState.mk Client.empty).SetNonceFixForAccount id 0 "0xAcc" 2).1.DelNonceFixForAccount
        id "0xACC").1.GetNonceFixForAccount id 0 "0xAcc" = (0, false, none) ∧
    (RedisState.mk Client.empty).DelNonceFixForAccount id "0xAcc"
      = (RedisState.mk Client.empty, none) :=
  ⟨(nonce_fix_delete_clears id ⟨Client.empty⟩ rfl "0xAcc" "0xACC" 2 0 0
      (by unfold EqUpToAsciiCase SameUpToAsciiCase; decide)).2.1,
   (nonce_fix_delete_clears id ⟨Client.empty⟩ rfl "0xAcc" "0xAcc" 2 0 0
      (eqUpToAsciiCase_refl _)).2.2 rfl⟩

theorem HasPrefix_iff (s pre : String) : HasPrefix s pre = true ↔ pre.data <+: s.data := by
  unfold HasPrefix
  rw [decide_eq_true_iff, List.prefix_iff_eq_take]
  constructor
  · rintro ⟨_, h⟩
    exact h.symm
  · intro h
    refine ⟨?_, h.symm⟩
    have := congrArg List.length h
    rw [List.length_take] at this
    omega

theorem IsBlacklisted_loop_iff (ip : String) : ∀ l : List String,
    IsBlacklisted.loop ip l = true ↔ ∃ entry ∈ l, entry.data <+: ip.data
  | [] => by simp [IsBlacklisted.loop]
  | e :: rest => by
    unfold IsBlacklisted.loop
    by_cases h : HasPrefix ip e = true
    · rw [if_pos h]
      simp only [true_iff]
      exact ⟨e, List.mem_cons_self _ _, (HasPrefix_iff _ _).1 h⟩
    · rw [if_neg h, IsBlacklisted_loop_iff ip rest]
      constructor
      · rintro ⟨x, hx, hp⟩
        exact ⟨x, List.mem_cons_of_mem _ hx, hp⟩
      · rintro ⟨x, hx, hp⟩
        rcases List.mem_cons.1 hx with rfl | hx
        · exact absurd ((HasPrefix_iff _ _).2 hp) h
        · exact ⟨x, hx, hp⟩

/-- C10 (`IsBlacklisted` is a prefix match): `IsBlacklisted(ip)` is true exactly
when some entry of `blacklistedIps` is a prefix of `ip`; with the shipped list
that is exactly when `ip` starts with "127.0.0.2", so "127.0.0.2", "127.0.0.20"
and "127.0.0.255" are blacklisted and "127.0.0.1" and "" are not. -/
theorem isBlacklisted_prefix_match (ip : String) :
    (IsBlacklisted ip = true ↔ ∃ entry ∈ blacklistedIps, entry.data <+: ip.data) ∧
    (IsBlacklisted ip = true ↔ "127.0.0.2".data <+: ip.data) ∧
    IsBlacklisted "127.0.0.2" = true ∧ IsBlacklisted "127.0.0.20" = true ∧
    IsBlacklisted "127.0.0.255" = true ∧ IsBlacklisted "127.0.0.1" = false ∧
    IsBlacklisted "" = false := by
  refine ⟨IsBlacklisted_loop_iff ip blacklistedIps, ?_, by decide, by decide, by decide,
    by decide, by decide⟩
  unfold IsBlacklisted
  rw [IsBlacklisted_loop_iff ip blacklistedIps]
  simp [blacklistedIps]


theorem GetTxSentToRelay_found (tables : Char → Char) (s : RedisState)
    (hs : s.RedisClient.fault = none) (clock clock' : Int) (T : Time) (h : String) :
    ((s.SetTxSentToRelay tables clock T h).1.GetTxSentToRelay tables clock' h).2.1 =
        decide (clock' < clock + RedisExpiryTxSentToRelay) ∧
    (clock + RedisExpiryTxSentToRelay ≤ clock' →
      (s.SetTxSentToRelay tables clock T h).1.GetTxSentToRelay tables clock' h
        = (Time.zero, false, none)) := by
  simp only [RedisState.SetTxSentToRelay, RedisState.GetTxSentToRelay,
    Client.Get_Set_same _ hs]
  by_cases hl : clock' < clock + RedisExpiryTxSentToRelay
  · rw [if_pos hl]
    refine ⟨?_, fun h => absurd hl (not_lt.2 h)⟩
    simp only [hl, decide_True]
    cases Atoi (Arg.int64 T.UTC.Unix).text <;> rfl
  · rw [if_neg hl]
    simp only [hl, decide_False, implies_true, and_self]

theorem GetNonceFixForAccount_found (tables : Char → Char) (s : RedisState)
    (hs : s.RedisClient.fault = none) (clock clock' : Int) (a : String) (c : Nat) :
    ((s.SetNonceFixForAccount tables clock a c).1.GetNonceFixForAccount tables clock' a).2.1 =
        decide (clock' < clock + RedisExpiryNonceFixForAccount) ∧
    (clock + RedisExpiryNonceFixForAccount ≤ clock' →
      (s.SetNonceFixForAccount tables clock a c).1.GetNonceFixForAccount tables clock' a
        = (0, false, none)) := by
  simp only [RedisState.SetNonceFixForAccount, RedisState.GetNonceFixForAccount,
    Client.Get_Set_same _ hs]
  by_cases hl : clock' < clock + RedisExpiryNonceFixForAccount
  · rw [if_pos hl]
    refine ⟨?_, fun h => absurd hl (not_lt.2 h)⟩
    simp only [hl, decide_True]
    cases ParseUint (Arg.uint64 c).text <;> rfl
  · rw [if_neg hl]
    simp only [hl, decide_False, implies_true, and_self]

/-- C8 (TTL policy and refresh): the TTL is 24h (86400 s) for the relay-forward,
sender+nonce, sender and last-hash indices and 2h (7200 s) for the nonce-fix
counter.  On a store whose operations succeed, after a record at store time `t`
the key holds the entry (written text, `t` + TTL), also when the key was
recorded before at another time `t0`; the lookup is found at every time
strictly before `t` + TTL and not-found without error from `t` + TTL onward. -/
theorem ttl_policy_and_refresh (tables : Char → Char) (s : RedisState)
    (hs : s.RedisClient.fault = none) (k v v0 : String) (nonce c c0 : Nat) (T T0 : Time)
    (t0 t t' : Int) :
    (RedisExpiryTxSentToRelay = 86400 * Second ∧
     RedisExpiryTxHashForSenderAndNonce = 86400 * Second ∧
     RedisExpiryNonceFixForAccount = 7200 * Second ∧
     RedisExpirySenderOfTxHash = 86400 * Second ∧
     RedisExpiryLastTxHashOfAccount = 86400 * Second) ∧
    ((s.SetTxSentToRelay tables t T k).1.RedisClient.db (RedisKeyTxSentToRelay tables k)
        = some ⟨FormatInt T.Unix, t + 86400 * Second⟩ ∧
     (s.SetTxHashForSenderAndNonce tables t k nonce v).1.RedisClient.db
        (RedisKeyTxHashForSenderAndNonce tables k nonce)
        = some ⟨ToLower tables v, t + 86400 * Second⟩ ∧
     (s.SetNonceFixForAccount tables t k c).1.RedisClient.db (RedisKeyNonceFixForAccount tables k)
        = some ⟨FormatUint c, t + 7200 * Second⟩ ∧
     (s.SetSenderOfTxHash tables t k v).1.RedisClient.db (RedisKeySenderOfTxHash tables k)
        = some ⟨ToLower tables v, t + 86400 * Second⟩ ∧
     (s.SetLastTxHashOfAccount tables t k v).1.RedisClient.db
        (RedisKeyLastTxHashOfAccount tables k)
        = some ⟨ToLower tables v, t + 86400 * Second⟩) ∧
    (((s.SetTxSentToRelay tables t0 T0 k).1.SetTxSentToRelay tables t T k).1.RedisClient.db
        (RedisKeyTxSentToRelay tables k) = some ⟨FormatInt T.Unix, t + 86400 * Second⟩ ∧
     ((s.SetTxHashForSenderAndNonce tables t0 k nonce v0).1.SetTxHashForSenderAndNonce
        tables t k nonce v).1.RedisClient.db (RedisKeyTxHashForSenderAndNonce tables k nonce)
        = some ⟨ToLower tables v, t + 86400 * Second⟩ ∧
     ((s.SetNonceFixForAccount tables t0 k c0).1.SetNonceFixForAccount
        tables t k c).1.RedisClient.db (RedisKeyNonceFixForAccount tables k)
        = some ⟨FormatUint c, t + 7200 * Second⟩ ∧
     ((s.SetSenderOfTxHash tables t0 k v0).1.SetSenderOfTxHash tables t k v).1.RedisClient.db
        (RedisKeySenderOfTxHash tables k) = some ⟨ToLower tables v, t + 86400 * Second⟩ ∧
     ((s.SetLastTxHashOfAccount tables t0 k v0).1.SetLastTxHashOfAccount
        tables t k v).1.RedisClient.db (RedisKeyLastTxHashOfAccount tables k)
        = some ⟨ToLower tables v, t + 86400 * Second⟩) ∧
    (t' < t + 86400 * Second →
      ((s.SetTxSentToRelay tables t T k).1.GetTxSentToRelay tables t' k).2.1 = true ∧
      (s.SetTxHashForSenderAndNonce tables t k nonce v).1.GetTxHashForSenderAndNonce
        tables t' k nonce = (ToLower tables v, true, none) ∧
      (s.SetSenderOfTxHash tables t k v).1.GetSenderOfTxHash tables t' k
        = (ToLower tables v, true, none) ∧
      (s.SetLastTxHashOfAccount tables t k v).1.GetLastTxHashOfAccount tables t' k
        = (ToLower tables v, true, none)) ∧
    (t + 86400 * Second ≤ t' →
      (s.SetTxSentToRelay tables t T k).1.GetTxSentToRelay tables t' k
        = (Time.zero, false, none) ∧
      (s.SetTxHashForSenderAndNonce tables t k nonce v).1.GetTxHashForSenderAndNonce
        tables t' k nonce = ("", false, none) ∧
      (s.SetSenderOfTxHash tables t k v).1.GetSenderOfTxHash tables t' k = ("", false, none) ∧
      (s.SetLastTxHashOfAccount tables t k v).1.GetLastTxHashOfAccount tables t' k
        = ("", false, none)) ∧
    (t' < t + 7200 * Second →
      ((s.SetNonceFixForAccount tables t k c).1.GetNonceFixForAccount tables t' k).2.1 = true) ∧
    (t + 7200 * Second ≤ t' →
      (s.SetNonceFixForAccount tables t k c).1.GetNonceFixForAccount tables t' k
        = (0, false, none)) := by
  have e24 : (24 : Int) * Hour = 86400 * Second := by unfold Hour; ring
  have e2 : (2 : Int) * Hour = 7200 * Second := by unfold Hour; ring
  have c1 : RedisExpiryTxSentToRelay = 86400 * Second := e24
  have c2 : RedisExpiryTxHashForSenderAndNonce = 86400 * Second := e24
  have c3 : RedisExpiryNonceFixForAccount = 7200 * Second := e2
  have c4 : RedisExpirySenderOfTxHash = 86400 * Second := e24
  have c5 : RedisExpiryLastTxHashOfAccount = 86400 * Second := e24
  have d1 : ∀ s : RedisState, s.RedisClient.fault = none →
      (s.SetTxSentToRelay tables t T k).1.RedisClient.db (RedisKeyTxSentToRelay tables k)
        = some ⟨FormatInt T.Unix, t + 86400 * Second⟩ := fun s hs => by
    simp only [RedisState.SetTxSentToRelay, Client.Set_db _ hs, c1, Arg.text, Time.UTC]
  have d2 : ∀ s : RedisState, s.RedisClient.fault = none →
      (s.SetTxHashForSenderAndNonce tables t k nonce v).1.RedisClient.db
        (RedisKeyTxHashForSenderAndNonce tables k nonce)
        = some ⟨ToLower tables v, t + 86400 * Second⟩ := fun s hs => by
    simp only [RedisState.SetTxHashForSenderAndNonce, Client.Set_db _ hs, c2, Arg.text]
  have d3 : ∀ s : RedisState, s.RedisClient.fault = none →
      (s.SetNonceFixForAccount tables t k c).1.RedisClient.db
        (RedisKeyNonceFixForAccount tables k)
        = some ⟨FormatUint c, t + 7200 * Second⟩ := fun s hs => by
    simp only [RedisState.SetNonceFixForAccount, Client.Set_db _ hs, c3, Arg.text]
  have d4 : ∀ s : RedisState, s.RedisClient.fault = none →
      (s.SetSenderOfTxHash tables t k v).1.RedisClient.db (RedisKeySenderOfTxHash tables k)
        = some ⟨ToLower tables v, t + 86400 * Second⟩ := fun s hs => by
    simp only [RedisState.SetSenderOfTxHash, Client.Set_db _ hs, c4, Arg.text]
  have d5 : ∀ s : RedisState, s.RedisClient.fault = none →
      (s.SetLastTxHashOfAccount tables t k v).1.RedisClient.db
        (RedisKeyLastTxHashOfAccount tables k)
        = some ⟨ToLower tables v, t + 86400 * Second⟩ := fun s hs => by
    simp only [RedisState.SetLastTxHashOfAccount, Client.Set_db _ hs, c5, Arg.text]
  have f1 : (s.SetTxSentToRelay tables t0 T0 k).1.RedisClient.fault = none := by
    simp only [RedisState.SetTxSentToRelay, Client.Set_fault, hs]
  have f2 : (s.SetTxHashForSenderAndNonce tables t0 k nonce v0).1.RedisClient.fault = none := by
    simp only [RedisState.SetTxHashForSenderAndNonce, Client.Set_fault, hs]
  have f3 : (s.SetNonceFixForAccount tables t0 k c0).1.RedisClient.fault = none := by
    simp only [RedisState.SetNonceFixForAccount, Client.Set_fault, hs]
  have f4 : (s.SetSenderOfTxHash tables t0 k v0).1.RedisClient.fault = none := by
    simp only [RedisState.SetSenderOfTxHash, Client.Set_fault, hs]
  have f5 : (s.SetLastTxHashOfAccount tables t0 k v0).1.RedisClient.fault = none := by
    simp only [RedisState.SetLastTxHashOfAccount, Client.Set_fault, hs]
  have g1 := GetTxSentToRelay_found tables s hs t t' T k
  have g3 := GetNonceFixForAccount_found tables s hs t t' k c
  rw [c1] at g1
  rw [c3] at g3
  refine ⟨⟨c1, c2, c3, c4, c5⟩, ⟨d1 s hs, d2 s hs, d3 s hs, d4 s hs, d5 s hs⟩,
    ⟨d1 _ f1, d2 _ f2, d3 _ f3, d4 _ f4, d5 _ f5⟩, fun hl => ⟨?_, ?_, ?_, ?_⟩,
    fun hl => ⟨g1.2 hl, ?_, ?_, ?_⟩, fun hl => ?_, g3.2⟩
  · rw [g1.1]
    exact decide_eq_true hl
  · rw [GetTxHashForSenderAndNonce_Set tables s hs, c2, if_pos hl]
  · rw [GetSenderOfTxHash_Set tables s hs, c4, if_pos hl]
  · rw [GetLastTxHashOfAccount_Set tables s hs, c5, if_pos hl]
  · rw [GetTxHashForSenderAndNonce_Set tables s hs, c2, if_neg (not_lt.2 hl)]
  · rw [GetSenderOfTxHash_Set tables s hs, c4, if_neg (not_lt.2 hl)]
  · rw [GetLastTxHashOfAccount_Set tables s hs, c5, if_neg (not_lt.2 hl)]
  · rw [g3.1]
    exact decide_eq_true hl

/-- Witness of C8: a hash recorded at store time 0 and again at 1000 s is found
at 86400 s (the first window has passed, the second has not) and not-found at
87400 s; a nonce-fix count recorded at 0 is found just before 7200 s and
not-found at 7200 s. -/
theorem ttl_policy_and_refresh_witness :
    ((((RedisState.mk Client.empty).SetSenderOfTxHash id 0 "0xH" "0xA").1.SetSenderOfTxHash id
        (1000 * Second) "0xH" "0xA").1.GetSenderOfTxHash id (86400 * Second) "0xH"
        = ("0xa", true, none)) ∧
    ((((RedisState.mk Client.empty).SetSenderOfTxHash id 0 "0xH" "0xA").1.SetSenderOfTxHash id
        (1000 * Second) "0xH" "0xA").1.GetSenderOfTxHash id (87400 * Second) "0xH"
        = ("", false, none)) ∧
    (((RedisState.mk Client.empty).SetNonceFixForAccount id 0 "0xA" 2).1.GetNonceFixForAccount id
        (7200 * Second - 1) "0xA").2.1 = true ∧
    ((RedisState.mk Client.empty).SetNonceFixForAccount id 0 "0xA" 2).1.GetNonceFixForAccount id
        (7200 * Second) "0xA" = (0, false, none) :=
  ⟨((ttl_policy_and_refresh id
      ((RedisState.mk Client.empty).SetSenderOfTxHash id 0 "0xH" "0xA").1 rfl "0xH" "0xA" "0xA"
      0 2 2 ⟨0, 0⟩ ⟨0, 0⟩ 0 (1000 * Second) (86400 * Second)).2.2.2.1 (by decide)).2.2.1,
   ((ttl_policy_and_refresh id
      ((RedisState.mk Client.empty).SetSenderOfTxHash id 0 "0xH" "0xA").1 rfl "0xH" "0xA" "0xA"
      0 2 2 ⟨0, 0⟩ ⟨0, 0⟩ 0 (1000 * Second) (87400 * Second)).2.2.2.2.1 (by decide)).2.2.1,
   (ttl_policy_and_refresh id ⟨Client.empty⟩ rfl "0xA" "0xA" "0xA"
      0 2 2 ⟨0, 0⟩ ⟨0, 0⟩ 0 0 (7200 * Second - 1)).2.2.2.2.2.1 (by decide),
   by
    have h := (ttl_policy_and_refresh id ⟨Client.empty⟩ rfl "0xA" "0xA" "0xA"
      0 2 2 ⟨0, 0⟩ ⟨0, 0⟩ 0 0 (7200 * Second)).2.2.2.2.2.2 (by decide)
    exact h⟩


theorem append_ne_of_getElem_ne (P Q x y : String) (i : Nat) (hP : i < P.data.length)
    (hQ : i < Q.data.length) (h : P.data[i]? ≠ Q.data[i]?) : P ++ x ≠ Q ++ y := by
  intro he
  have hd := congrArg (fun s : String => s.data[i]?) he
  simp only [String.data_append, List.getElem?_append_left hP,
    List.getElem?_append_left hQ] at hd
  exact h hd

theorem senderNonceKey_eq (tables : Char → Char) (x : String) (n : Nat) :
    RedisKeyTxHashForSenderAndNonce tables x n
      = RedisPrefixTxHashForSenderAndNonce ++ (ToLower tables x ++ "_" ++ FormatUint n) := by
  simp only [RedisKeyTxHashForSenderAndNonce, String.append_assoc]

theorem relayKey_ne_senderNonceKey (tables : Char → Char) (x y : String) (m : Nat) :
    RedisKeyTxSentToRelay tables x ≠ RedisKeyTxHashForSenderAndNonce tables y m := by
  rw [RedisKeyTxSentToRelay, senderNonceKey_eq]
  exact append_ne_of_getElem_ne _ _ _ _ 15 (by decide) (by decide) (by decide)

theorem relayKey_ne_nonceFixKey (tables : Char → Char) (x y : String) :
    RedisKeyTxSentToRelay tables x ≠ RedisKeyNonceFixForAccount tables y := by
  rw [RedisKeyTxSentToRelay, RedisKeyNonceFixForAccount]
  exact append_ne_of_getElem_ne _ _ _ _ 15 (by decide) (by decide) (by decide)

theorem relayKey_ne_senderKey (tables : Char → Char) (x y : String) :
    RedisKeyTxSentToRelay tables x ≠ RedisKeySenderOfTxHash tables y := by
  rw [RedisKeyTxSentToRelay, RedisKeySenderOfTxHash]
  exact append_ne_of_getElem_ne _ _ _ _ 15 (by decide) (by decide) (by decide)

theorem relayKey_ne_lastTxHashKey (tables : Char → Char) (x y : String) :
    RedisKeyTxSentToRelay tables x ≠ RedisKeyLastTxHashOfAccount tables y := by
  rw [RedisKeyTxSentToRelay, RedisKeyLastTxHashOfAccount]
  exact append_ne_of_getElem_ne _ _ _ _ 13 (by decide) (by decide) (by decide)

theorem senderNonceKey_ne_nonceFixKey (tables : Char → Char) (x y : String) (n : Nat) :
    RedisKeyTxHashForSenderAndNonce tables x n ≠ RedisKeyNonceFixForAccount tables y := by
  rw [senderNonceKey_eq, RedisKeyNonceFixForAccount]
  exact append_ne_of_getElem_ne _ _ _ _ 22 (by decide) (by decide) (by decide)

theorem senderNonceKey_ne_senderKey (tables : Char → Char) (x y : String) (n : Nat) :
    RedisKeyTxHashForSenderAndNonce tables x n ≠ RedisKeySenderOfTxHash tables y := by
  rw [senderNonceKey_eq, RedisKeySenderOfTxHash]
  exact append_ne_of_getElem_ne _ _ _ _ 22 (by decide) (by decide) (by decide)

theorem senderNonceKey_ne_lastTxHashKey (tables : Char → Char) (x y : String) (n : Nat) :
    RedisKeyTxHashForSenderAndNonce tables x n ≠ RedisKeyLastTxHashOfAccount tables y := by
  rw [senderNonceKey_eq, RedisKeyLastTxHashOfAccount]
  exact append_ne_of_getElem_ne _ _ _ _ 13 (by decide) (by decide) (by decide)

theorem nonceFixKey_ne_senderKey (tables : Char → Char) (x y : String) :
    RedisKeyNonceFixForAccount tables x ≠ RedisKeySenderOfTxHash tables y := by
  rw [RedisKeyNonceFixForAccount, RedisKeySenderOfTxHash]
  exact append_ne_of_getElem_ne _ _ _ _ 22 (by decide) (by decide) (by decide)

theorem nonceFixKey_ne_lastTxHashKey (tables : Char → Char) (x y : String) :
    RedisKeyNonceFixForAccount tables x ≠ RedisKeyLastTxHashOfAccount tables y := by
  rw [RedisKeyNonceFixForAccount, RedisKeyLastTxHashOfAccount]
  exact append_ne_of_getElem_ne _ _ _ _ 13 (by decide) (by decide) (by decide)

theorem senderKey_ne_lastTxHashKey (tables : Char → Char) (x y : String) :
    RedisKeySenderOfTxHash tables x ≠ RedisKeyLastTxHashOfAccount tables y := by
  rw [RedisKeySenderOfTxHash, RedisKeyLastTxHashOfAccount]
  exact append_ne_of_getElem_ne _ _ _ _ 13 (by decide) (by decide) (by decide)

/-- C9 (indices are independent): keys of two different indices are never
equal, whatever the identifiers and nonces, and every key starts with
"rpc-endpoint:"; therefore a record or delete in one index leaves the result of
every lookup in each other index unchanged, on every store state. -/
theorem indices_independent (tables : Char → Char) (s : RedisState) (x y v : String)
    (n m c : Nat) (T : Time) (clock clock' : Int) :
    (RedisKeyTxSentToRelay tables x ≠ RedisKeyTxHashForSenderAndNonce tables y m ∧
     RedisKeyTxSentToRelay tables x ≠ RedisKeyNonceFixForAccount tables y ∧
     RedisKeyTxSentToRelay tables x ≠ RedisKeySenderOfTxHash tables y ∧
     RedisKeyTxSentToRelay tables x ≠ RedisKeyLastTxHashOfAccount tables y ∧
     RedisKeyTxHashForSenderAndNonce tables x n ≠ RedisKeyNonceFixForAccount tables y ∧
     RedisKeyTxHashForSenderAndNonce tables x n ≠ RedisKeySenderOfTxHash tables y ∧
     RedisKeyTxHashForSenderAndNonce tables x n ≠ RedisKeyLastTxHashOfAccount tables y ∧
     RedisKeyNonceFixForAccount tables x ≠ RedisKeySenderOfTxHash tables y ∧
     RedisKeyNonceFixForAccount tables x ≠ RedisKeyLastTxHashOfAccount tables y ∧
     RedisKeySenderOfTxHash tables x ≠ RedisKeyLastTxHashOfAccount tables y) ∧
    ((∃ rest : String, RedisKeyTxSentToRelay tables x = "rpc-endpoint:" ++ rest) ∧
     (∃ rest : String, RedisKeyTxHashForSenderAndNonce tables x n = "rpc-endpoint:" ++ rest) ∧
     (∃ rest : String, RedisKeyNonceFixForAccount tables x = "rpc-endpoint:" ++ rest) ∧
     (∃ rest : String, RedisKeySenderOfTxHash tables x = "rpc-endpoint:" ++ rest) ∧
     (∃ rest : String, RedisKeyLastTxHashOfAccount tables x = "rpc-endpoint:" ++ rest)) ∧
    ((s.SetTxSentToRelay tables clock T x).1.GetTxHashForSenderAndNonce tables clock' y m
        = s.GetTxHashForSenderAndNonce tables clock' y m ∧
     (s.SetTxSentToRelay tables clock T x).1.GetNonceFixForAccount tables clock' y
        = s.GetNonceFixForAccount tables clock' y ∧
     (s.SetTxSentToRelay tables clock T x).1.GetSenderOfTxHash tables clock' y
        = s.GetSenderOfTxHash tables clock' y ∧
     (s.SetTxSentToRelay tables clock T x).1.GetLastTxHashOfAccount tables clock' y
        = s.GetLastTxHashOfAccount tables clock' y ∧
     (s.SetTxHashForSenderAndNonce tables clock x n v).1.GetTxSentToRelay tables clock' y
        = s.GetTxSentToRelay tables clock' y ∧
     (s.SetTxHashForSenderAndNonce tables clock x n v).1.GetNonceFixForAccount tables clock' y
        = s.GetNonceFixForAccount tables clock' y ∧
     (s.SetTxHashForSenderAndNonce tables clock x n v).1.GetSenderOfTxHash tables clock' y
        = s.GetSenderOfTxHash tables clock' y ∧
     (s.SetTxHashForSenderAndNonce tables clock x n v).1.GetLastTxHashOfAccount tables clock' y
        = s.GetLastTxHashOfAccount tables clock' y ∧
     (s.SetNonceFixForAccount tables clock x c).1.GetTxSentToRelay tables clock' y
        = s.GetTxSentToRelay tables clock' y ∧
     (s.SetNonceFixForAccount tables clock x c).1.GetTxHashForSenderAndNonce tables clock' y m
        = s.GetTxHashForSenderAndNonce tables clock' y m ∧
     (s.SetNonceFixForAccount tables clock x c).1.GetSenderOfTxHash tables clock' y
        = s.GetSenderOfTxHash tables clock' y ∧
     (s.SetNonceFixForAccount tables clock x c).1.GetLastTxHashOfAccount tables clock' y
        = s.GetLastTxHashOfAccount tables clock' y ∧
     (s.DelNonceFixForAccount tables x).1.GetTxSentToRelay tables clock' y
        = s.GetTxSentToRelay tables clock' y ∧
     (s.DelNonceFixForAccount tables x).1.GetTxHashForSenderAndNonce tables clock' y m
        = s.GetTxHashForSenderAndNonce tables clock' y m ∧
     (s.DelNonceFixForAccount tables x).1.GetSenderOfTxHash tables clock' y
        = s.GetSenderOfTxHash tables clock' y ∧
     (s.DelNonceFixForAccount tables x).1.GetLastTxHashOfAccount tables clock' y
        = s.GetLastTxHashOfAccount tables clock' y ∧
     (s.SetSenderOfTxHash tables clock x v).1.GetTxSentToRelay tables clock' y
        = s.GetTxSentToRelay tables clock' y ∧
     (s.SetSenderOfTxHash tables clock x v).1.GetTxHashForSenderAndNonce tables clock' y m
        = s.GetTxHashForSenderAndNonce tables clock' y m ∧
     (s.SetSenderOfTxHash tables clock x v).1.GetNonceFixForAccount tables clock' y
        = s.GetNonceFixForAccount tables clock' y ∧
     (s.SetSenderOfTxHash tables clock x v).1.GetLastTxHashOfAccount tables clock' y
        = s.GetLastTxHashOfAccount tables clock' y ∧
     (s.SetLastTxHashOfAccount tables clock x v).1.GetTxSentToRelay tables clock' y
        = s.GetTxSentToRelay tables clock' y ∧
     (s.SetLastTxHashOfAccount tables clock x v).1.GetTxHashForSenderAndNonce tables clock' y m
        = s.GetTxHashForSenderAndNonce tables clock' y m ∧
     (s.SetLastTxHashOfAccount tables clock x v).1.GetNonceFixForAccount tables clock' y
        = s.GetNonceFixForAccount tables clock' y ∧
     (s.SetLastTxHashOfAccount tables clock x v).1.GetSenderOfTxHash tables clock' y
        = s.GetSenderOfTxHash tables clock' y) := by
  refine ⟨⟨relayKey_ne_senderNonceKey tables x y m,
      relayKey_ne_nonceFixKey tables x y,
      relayKey_ne_senderKey tables x y,
      relayKey_ne_lastTxHashKey tables x y,
      senderNonceKey_ne_nonceFixKey tables x y n,
      senderNonceKey_ne_senderKey tables x y n,
      senderNonceKey_ne_lastTxHashKey tables x y n,
      nonceFixKey_ne_senderKey tables x y,
      nonceFixKey_ne_lastTxHashKey tables x y,
      senderKey_ne_lastTxHashKey tables x y⟩,
    ⟨⟨"tx-sent-to-relay:" ++ ToLower tables x, by
        simp only [RedisKeyTxSentToRelay, RedisPrefixTxSentToRelay, RedisPrefix, String.append_assoc]⟩,
      ⟨"txsender-and-nonce-to-txhash:" ++ ToLower tables x ++ "_" ++ FormatUint n, by
        simp only [RedisKeyTxHashForSenderAndNonce, RedisPrefixTxHashForSenderAndNonce, RedisPrefix, String.append_assoc]⟩,
      ⟨"txsender-with-nonce-fix:" ++ ToLower tables x, by
        simp only [RedisKeyNonceFixForAccount, RedisPrefixNonceFixForAccount, RedisPrefix, String.append_assoc]⟩,
      ⟨"txsender-of-txhash:" ++ ToLower tables x, by
        simp only [RedisKeySenderOfTxHash, RedisPrefixSenderOfTxHash, RedisPrefix, String.append_assoc]⟩,
      ⟨"last-txhash-of-txsender:" ++ ToLower tables x, by
        simp only [RedisKeyLastTxHashOfAccount, RedisPrefixLastTxHashOfAccount, RedisPrefix, String.append_assoc]⟩⟩,
    ⟨?_, ?_, ?_, ?_, ?_, ?_, ?_, ?_, ?_, ?_, ?_, ?_, ?_, ?_, ?_, ?_, ?_, ?_, ?_, ?_, ?_, ?_, ?_, ?_⟩⟩
  · simp only [RedisState.SetTxSentToRelay, RedisState.GetTxHashForSenderAndNonce,
      Client.Get_Set_other _ _ _ ((relayKey_ne_senderNonceKey tables x y m).symm)]
  · simp only [RedisState.SetTxSentToRelay, RedisState.GetNonceFixForAccount,
      Client.Get_Set_other _ _ _ ((relayKey_ne_nonceFixKey tables x y).symm)]
  · simp only [RedisState.SetTxSentToRelay, RedisState.GetSenderOfTxHash,
      Client.Get_Set_other _ _ _ ((relayKey_ne_senderKey tables x y).symm)]
  · simp only [RedisState.SetTxSentToRelay, RedisState.GetLastTxHashOfAccount,
      Client.Get_Set_other _ _ _ ((relayKey_ne_lastTxHashKey tables x y).symm)]
  · simp only [RedisState.SetTxHashForSenderAndNonce, RedisState.GetTxSentToRelay,
      Client.Get_Set_other _ _ _ (relayKey_ne_senderNonceKey tables y x n)]
  · simp only [RedisState.SetTxHashForSenderAndNonce, RedisState.GetNonceFixForAccount,
      Client.Get_Set_other _ _ _ ((senderNonceKey_ne_nonceFixKey tables x y n).symm)]
  · simp only [RedisState.SetTxHashForSenderAndNonce, RedisState.GetSenderOfTxHash,
      Client.Get_Set_other _ _ _ ((senderNonceKey_ne_senderKey tables x y n).symm)]
  · simp only [RedisState.SetTxHashForSenderAndNonce, RedisState.GetLastTxHashOfAccount,
      Client.Get_Set_other _ _ _ ((senderNonceKey_ne_lastTxHashKey tables x y n).symm)]
  · simp only [RedisState.SetNonceFixForAccount, RedisState.GetTxSentToRelay,
      Client.Get_Set_other _ _ _ (relayKey_ne_nonceFixKey tables y x)]
  · simp only [RedisState.SetNonceFixForAccount, RedisState.GetTxHashForSenderAndNonce,
      Client.Get_Set_other _ _ _ (senderNonceKey_ne_nonceFixKey tables y x m)]
  · simp only [RedisState.SetNonceFixForAccount, RedisState.GetSenderOfTxHash,
      Client.Get_Set_other _ _ _ ((nonceFixKey_ne_senderKey tables x y).symm)]
  · simp only [RedisState.SetNonceFixForAccount, RedisState.GetLastTxHashOfAccount,
      Client.Get_Set_other _ _ _ ((nonceFixKey_ne_lastTxHashKey tables x y).symm)]
  · simp only [RedisState.DelNonceFixForAccount, RedisState.GetTxSentToRelay,
      Client.Get_Del_other _ _ (relayKey_ne_nonceFixKey tables y x)]
  · simp only [RedisState.DelNonceFixForAccount, RedisState.GetTxHashForSenderAndNonce,
      Client.Get_Del_other _ _ (senderNonceKey_ne_nonceFixKey tables y x m)]
  · simp only [RedisState.DelNonceFixForAccount, RedisState.GetSenderOfTxHash,
      Client.Get_Del_other _ _ ((nonceFixKey_ne_senderKey tables x y).symm)]
  · simp only [RedisState.DelNonceFixForAccount, RedisState.GetLastTxHashOfAccount,
      Client.Get_Del_other _ _ ((nonceFixKey_ne_lastTxHashKey tables x y).symm)]
  · simp only [RedisState.SetSenderOfTxHash, RedisState.GetTxSentToRelay,
      Client.Get_Set_other _ _ _ (relayKey_ne_senderKey tables y x)]
  · simp only [RedisState.SetSenderOfTxHash, RedisState.GetTxHashForSenderAndNonce,
      Client.Get_Set_other _ _ _ (senderNonceKey_ne_senderKey tables y x m)]
  · simp only [RedisState.SetSenderOfTxHash, RedisState.GetNonceFixForAccount,
      Client.Get_Set_other _ _ _ (nonceFixKey_ne_senderKey tables y x)]
  · simp only [RedisState.SetSenderOfTxHash, RedisState.GetLastTxHashOfAccount,
      Client.Get_Set_other _ _ _ ((senderKey_ne_lastTxHashKey tables x y).symm)]
  · simp only [RedisState.SetLastTxHashOfAccount, RedisState.GetTxSentToRelay,
      Client.Get_Set_other _ _ _ (relayKey_ne_lastTxHashKey tables y x)]
  · simp only [RedisState.SetLastTxHashOfAccount, RedisState.GetTxHashForSenderAndNonce,
      Client.Get_Set_other _ _ _ (senderNonceKey_ne_lastTxHashKey tables y x m)]
  · simp only [RedisState.SetLastTxHashOfAccount, RedisState.GetNonceFixForAccount,
      Client.Get_Set_other _ _ _ (nonceFixKey_ne_lastTxHashKey tables y x)]
  · simp only [RedisState.SetLastTxHashOfAccount, RedisState.GetSenderOfTxHash,
      Client.Get_Set_other _ _ _ (senderKey_ne_lastTxHashKey tables y x)]

/-- Witness of C9: keys of the sender index and of the last-hash index for the
same identifier differ, and `SetSenderOfTxHash(x, s)` on the empty store leaves
`GetLastTxHashOfAccount(x)` and `GetTxSentToRelay(x)` as they were, not-found. -/
theorem indices_independent_witness :
    RedisKeySenderOfTxHash id "0xAB" ≠ RedisKeyLastTxHashOfAccount id "0xAB" ∧
    ((RedisState.mk Client.empty).SetSenderOfTxHash id 0 "0xAB" "0xCD").1.GetLastTxHashOfAccount
      id 0 "0xAB" = ("", false, none) ∧
    ((RedisState.mk Client.empty).SetSenderOfTxHash id 0 "0xAB" "0xCD").1.GetTxSentToRelay
      id 0 "0xAB" = (Time.zero, false, none) :=
  ⟨(indices_independent id ⟨Client.empty⟩ "0xAB" "0xAB" "0xCD" 0 0 0 ⟨0, 0⟩ 0 0).1.2.2.2.2.2.2.2.2.2,
   (indices_independent id ⟨Client.empty⟩ "0xAB" "0xAB" "0xCD" 0 0 0 ⟨0, 0⟩ 0 0).2.2.2.2.2.2.2.2.2.2.2.2.2.2.2.2.2.2.2.2.2.1,
   (indices_independent id ⟨Client.empty⟩ "0xAB" "0xAB" "0xCD" 0 0 0 ⟨0, 0⟩ 0 0).2.2.2.2.2.2.2.2.2.2.2.2.2.2.2.2.2.2.1⟩

end RpcEndpoint
